import Mathlib

/-!
Verification of the HealthInsuraAI claim-processing core: a shallow
embedding of the ReAct orchestration loop (`src/agent/react_agent.py`),
the HTTP batch layer (`src/utils/http_client.py`) and the stage
processors (`src/processors/*.py`) into Lean, together with theorems
settling the specification's testable properties.

External collaborators (the reasoning LLMs, the remote HF endpoints,
the filesystem, the clock) are modelled as an explicit environment
record `Env`; everything downstream of the environment is translated
directly from the Python source.  Python values flowing through the
pipeline are modelled by the `Json` type; Python exceptions that the
source code can raise and does not catch are modelled with `Except PyErr`.
-/

set_option maxRecDepth 8000

namespace HIA

/-- A JSON value / Python object as produced by `json.loads`.
Numbers keep their source lexeme (the claims never inspect numeric
values, only construct and compare them). -/
inductive Json where
  | null : Json
  | bool (b : Bool) : Json
  | num (lex : String) : Json
  | str (s : String) : Json
  | arr (xs : List Json) : Json
  | obj (kvs : List (String × Json)) : Json
deriving Repr

/-- Python exceptions relevant to the embedded code, with their message. -/
inductive PyErr where
  | typeError (msg : String) : PyErr
  | attributeError (msg : String) : PyErr
  | osError (msg : String) : PyErr
  | externalError (name msg : String) : PyErr
  | graphRecursionError : PyErr
deriving DecidableEq, Repr

namespace Json

/-- `dict.get(key, default)` on an object's key/value list: first match
(the parser collapses duplicate keys the way Python `dict` does). -/
def objGet (kvs : List (String × Json)) (k : String) (dflt : Json) : Json :=
  match kvs.find? (fun p => p.1 = k) with
  | some p => p.2
  | none => dflt

/-- Key lookup on an object's key/value list. -/
def objLookup (kvs : List (String × Json)) (k : String) : Option Json :=
  (kvs.find? (fun p => p.1 = k)).map Prod.snd

/-- Python `dict` insertion: overwrite in place if the key exists,
otherwise append preserving insertion order. -/
def objInsert (kvs : List (String × Json)) (k : String) (v : Json) :
    List (String × Json) :=
  match kvs with
  | [] => [(k, v)]
  | (k', v') :: rest =>
      if k' = k then (k, v) :: rest else (k', v') :: objInsert rest k v

/-- `x.get(key, default)`: `AttributeError` unless `x` is a dict. -/
def pyGet (x : Json) (k : String) (dflt : Json) : Except PyErr Json :=
  match x with
  | obj kvs => .ok (objGet kvs k dflt)
  | _ => .error (.attributeError "get")

/-- Lookup on a `Json` object (`none` if not an object or key absent). -/
def lookup (x : Json) (k : String) : Option Json :=
  match x with
  | obj kvs => objLookup kvs k
  | _ => none

/-- Python `==` comparison of a value against a string literal
(strings compare by contents, any other type is never equal). -/
def eqStr (x : Json) (s : String) : Bool :=
  match x with
  | str t => t == s
  | _ => false

/-- Python `x[key] = v` item assignment: `TypeError` unless a dict. -/
def pySetItem (x : Json) (k : String) (v : Json) : Except PyErr Json :=
  match x with
  | obj kvs => .ok (obj (objInsert kvs k v))
  | _ => .error (.typeError "item assignment")

/-- Python `iter(x)` as used by `for`-loops and comprehensions:
lists yield elements, strings yield 1-character strings, dicts yield
keys; other values raise `TypeError`. -/
def pyIter (x : Json) : Except PyErr (List Json) :=
  match x with
  | arr xs => .ok xs
  | str s => .ok (s.data.map (fun c => str (String.mk [c])))
  | obj kvs => .ok (kvs.map (fun p => str p.1))
  | _ => .error (.typeError "object is not iterable")

/-- Zero test on a JSON number lexeme: a JSON number denotes zero iff
every mantissa digit is `0` (the exponent cannot change zeroness;
float underflow of extreme literals is not modelled). -/
def numIsZero (lex : String) : Bool :=
  (lex.data.takeWhile (fun c => !(c == 'e') && !(c == 'E'))).all
    (fun c => !c.isDigit || c == '0')

/-- Python truthiness of a value. -/
def pyTruthy (x : Json) : Bool :=
  match x with
  | null => false
  | bool b => b
  | num lex => !(numIsZero lex)
  | str s => !s.isEmpty
  | arr xs => !xs.isEmpty
  | obj kvs => !kvs.isEmpty

mutual

/-- Python `repr` of a value, as used inside container displays.
Strings are shown in single quotes; only the escapes exercised by the
embedded code paths are produced. -/
def pyRepr : Json → String
  | null => "None"
  | bool true => "True"
  | bool false => "False"
  | num lex => lex
  | str s => "\x27" ++ s ++ "\x27"
  | arr xs => "[" ++ String.intercalate ", " (pyReprList xs) ++ "]"
  | obj kvs => "\x7b" ++ String.intercalate ", " (pyReprKVs kvs) ++ "\x7d"

/-- `repr` of the elements of a list. -/
def pyReprList : List Json → List String
  | [] => []
  | x :: xs => pyRepr x :: pyReprList xs

/-- `repr` of the entries of a dict. -/
def pyReprKVs : List (String × Json) → List String
  | [] => []
  | (k, v) :: kvs => ("\x27" ++ k ++ "\x27: " ++ pyRepr v) :: pyReprKVs kvs

end

/-- Python `str()` / f-string interpolation of a value. -/
def pyToStr (x : Json) : String :=
  match x with
  | str s => s
  | _ => pyRepr x

end Json

end HIA

namespace HIA

/-! ### Python string primitives

The agent manipulates Python `str` values; we model them as `List Char`.
`fsplit sep s` finds the first occurrence of the (nonempty) separator
`sep` in `s` and returns the parts before and after it; it is the
primitive behind Python's `in` test and `split`. -/

/-- Does `pat` occur at the start of `s`? (Python `s.startswith(pat)`.) -/
def listStarts : List Char → List Char → Bool
  | [], _ => true
  | _ :: _, [] => false
  | p :: ps, c :: cs => p == c && listStarts ps cs

/-- Split at the first occurrence of the nonempty separator `sep`:
`some (before, after)` when `sep` occurs, `none` otherwise. -/
def fsplit (sep : List Char) : List Char → Option (List Char × List Char)
  | [] => none
  | c :: cs =>
      if listStarts sep (c :: cs) then some ([], (c :: cs).drop sep.length)
      else
        match fsplit sep cs with
        | some (pre, post) => some (c :: pre, post)
        | none => none

/-- Python `sep in s` substring test (for nonempty `sep`). -/
def pyin (sep s : List Char) : Bool := (fsplit sep s).isSome

/-- `s.split(sep)[k+1] ... [0]` building block: the text before the
first occurrence of `sep` (all of `s` when `sep` does not occur) —
i.e. Python `s.split(sep)[0]`. -/
def beforeFirst (s sep : List Char) : List Char :=
  match fsplit sep s with
  | some (pre, _) => pre
  | none => s

/-- The text after the first occurrence of `sep`; callers guard with
`pyin` (Python would raise `IndexError` on `split(sep)[1]` otherwise). -/
def afterFirst (s sep : List Char) : List Char :=
  match fsplit sep s with
  | some (_, post) => post
  | none => s

/-- Python `str.isspace` characters for the ASCII range (the agent's
strings are ASCII; wider Unicode whitespace is not modelled). -/
def pySpace (c : Char) : Bool :=
  c == ' ' || c == '\t' || c == '\n' || c == '\r' || c == '\x0b' || c == '\x0c'

/-- Python `s.strip()`. -/
def pystrip (s : List Char) : List Char :=
  ((s.dropWhile pySpace).reverse.dropWhile pySpace).reverse

/-- Python `s.lower()` (ASCII case mapping). -/
def pylower (s : List Char) : List Char := s.map Char.toLower

/-! ### JSON parsing (`json.loads`)

A recursive-descent parser for the grammar accepted by Python's
`json.loads` with default arguments (strict strings, `NaN`/`Infinity`
constants, last-wins duplicate keys via `objInsert`).  The nesting
budget passed to `pValue` is the input length, which every nesting
level strictly consumes, so the budget never cuts a parse short.
Deviations from CPython, none of which the claims exercise: a lone
surrogate escape decodes to U+FFFD, and extreme nesting depth makes
CPython raise `RecursionError` instead of returning a parse. -/

/-- JSON inter-token whitespace (`json.decoder` accepts exactly these). -/
def jsonWs (c : Char) : Bool :=
  c == ' ' || c == '\t' || c == '\n' || c == '\r'

/-- Skip JSON whitespace. -/
def skipWs (cs : List Char) : List Char := cs.dropWhile jsonWs

/-- Strip JSON whitespace from both ends. -/
def trimJson (cs : List Char) : List Char :=
  ((cs.dropWhile jsonWs).reverse.dropWhile jsonWs).reverse

/-- Hex digit value. -/
def hexVal (c : Char) : Option Nat :=
  if c.isDigit then some (c.toNat - '0'.toNat)
  else if 'a' ≤ c ∧ c ≤ 'f' then some (c.toNat - 'a'.toNat + 10)
  else if 'A' ≤ c ∧ c ≤ 'F' then some (c.toNat - 'A'.toNat + 10)
  else none

/-- Value of a 4-digit hex escape. -/
def hex4 (a b c d : Char) : Option Nat := do
  let x1 ← hexVal a
  let x2 ← hexVal b
  let x3 ← hexVal c
  let x4 ← hexVal d
  pure (((x1 * 16 + x2) * 16 + x3) * 16 + x4)

/-- Turn a decoded `\uXXXX` (or combined surrogate pair) value into a
character; lone surrogates become U+FFFD (see module note). -/
def uchar (n : Nat) : Char :=
  if n < 0xd800 ∨ (0xdfff < n ∧ n < 0x110000) then Char.ofNat n else '�'

/-- One scanned unit of a JSON string body: a literal character or the
value of a `\uXXXX` escape (kept raw so surrogate pairs can combine). -/
inductive StrUnit where
  | lit (c : Char) : StrUnit
  | uesc (n : Nat) : StrUnit

/-- Scan the body of a JSON string after the opening quote, returning
the units and the rest of the input (strict mode: unescaped control
characters and unknown escapes are rejected, as in `json.loads`). -/
def pStringRaw : List Char → Option (List StrUnit × List Char)
  | [] => none
  | '"' :: rest => some ([], rest)
  | '\\' :: esc =>
      match esc with
      | 'u' :: a :: b :: c :: d :: rest =>
          match hex4 a b c d with
          | none => none
          | some n => (fun p => (StrUnit.uesc n :: p.1, p.2)) <$> pStringRaw rest
      | '"' :: rest => (fun p => (StrUnit.lit '"' :: p.1, p.2)) <$> pStringRaw rest
      | '\\' :: rest => (fun p => (StrUnit.lit '\\' :: p.1, p.2)) <$> pStringRaw rest
      | '/' :: rest => (fun p => (StrUnit.lit '/' :: p.1, p.2)) <$> pStringRaw rest
      | 'b' :: rest => (fun p => (StrUnit.lit '\x08' :: p.1, p.2)) <$> pStringRaw rest
      | 'f' :: rest => (fun p => (StrUnit.lit '\x0c' :: p.1, p.2)) <$> pStringRaw rest
      | 'n' :: rest => (fun p => (StrUnit.lit '\n' :: p.1, p.2)) <$> pStringRaw rest
      | 'r' :: rest => (fun p => (StrUnit.lit '\r' :: p.1, p.2)) <$> pStringRaw rest
      | 't' :: rest => (fun p => (StrUnit.lit '\t' :: p.1, p.2)) <$> pStringRaw rest
      | _ => none
  | c :: rest =>
      if c.toNat < 32 then none
      else (fun p => (StrUnit.lit c :: p.1, p.2)) <$> pStringRaw rest

/-- Combine scanned string units into characters, pairing adjacent
high/low surrogate escapes exactly as `json.decoder` does. -/
def combineUnits : List StrUnit → List Char
  | [] => []
  | StrUnit.lit c :: rest => c :: combineUnits rest
  | [StrUnit.uesc n] => [uchar n]
  | StrUnit.uesc n :: StrUnit.lit c :: rest =>
      uchar n :: combineUnits (StrUnit.lit c :: rest)
  | StrUnit.uesc n :: StrUnit.uesc m :: rest2 =>
      if (0xd800 ≤ n ∧ n ≤ 0xdbff) ∧ (0xdc00 ≤ m ∧ m ≤ 0xdfff) then
        uchar (0x10000 + (n - 0xd800) * 0x400 + (m - 0xdc00)) :: combineUnits rest2
      else uchar n :: combineUnits (StrUnit.uesc m :: rest2)

/-- Parse the body of a JSON string after the opening quote. -/
def pString (cs : List Char) : Option (List Char × List Char) :=
  (fun p => (combineUnits p.1, p.2)) <$> pStringRaw cs

/-- Lex a JSON number (strict `json` grammar), returning its lexeme. -/
def pNumber (cs : List Char) : Option (List Char × List Char) :=
  let (neg, cs1) :=
    match cs with
    | '-' :: rest => (['-'], rest)
    | _ => (([] : List Char), cs)
  match cs1 with
  | '0' :: rest => some (neg ++ ['0'] ++ (fracExp rest).1, (fracExp rest).2)
  | c :: _ =>
      if c.isDigit ∧ c ≠ '0' then
        let ds := cs1.takeWhile Char.isDigit
        let rest := cs1.dropWhile Char.isDigit
        some (neg ++ ds ++ (fracExp rest).1, (fracExp rest).2)
      else none
  | [] => none
where
  /-- Optional fraction and exponent parts. -/
  fracExp (cs : List Char) : List Char × List Char :=
    let (fr, cs2) :=
      match cs with
      | '.' :: d :: _ =>
          if d.isDigit then
            ('.' :: (cs.drop 1).takeWhile Char.isDigit, (cs.drop 1).dropWhile Char.isDigit)
          else (([] : List Char), cs)
      | _ => (([] : List Char), cs)
    let (ex, cs3) :=
      match cs2 with
      | e :: rest =>
          if e == 'e' || e == 'E' then
            let (sgn, rest2) :=
              match rest with
              | s :: r2 => if s == '+' || s == '-' then ([s], r2) else (([] : List Char), rest)
              | [] => (([] : List Char), rest)
            match rest2 with
            | d :: _ => if d.isDigit then (e :: sgn ++ rest2.takeWhile Char.isDigit, rest2.dropWhile Char.isDigit) else (([] : List Char), cs2)
            | [] => (([] : List Char), cs2)
          else (([] : List Char), cs2)
      | [] => (([] : List Char), cs2)
    (fr ++ ex, cs3)

end HIA

namespace HIA

mutual

/-- Parse a JSON value (`json.scanner`): strings, objects, arrays, the
`true`/`false`/`null` literals, the `NaN`/`Infinity`/`-Infinity`
constants accepted by `json.loads`, and numbers.  `fuel` only forces
structural termination: it falls by one per recursive call, and every
other call strictly shortens the input, so `2 * length + 2` of it can
never cut a parseable input short. -/
def pValue : Nat → List Char → Option (Json × List Char)
  | 0, _ => none
  | fuel + 1, cs =>
    match skipWs cs with
    | [] => none
    | '"' :: rest => (fun p => (Json.str (String.mk p.1), p.2)) <$> pString rest
    | '\x7b' :: rest =>
        (match skipWs rest with
         | '\x7d' :: rest2 => some (Json.obj [], rest2)
         | _ => pMembers fuel rest [])
    | '[' :: rest =>
        (match skipWs rest with
         | ']' :: rest2 => some (Json.arr [], rest2)
         | _ => pElems fuel rest [])
    | cs' =>
        if listStarts "true".data cs' then some (Json.bool true, cs'.drop 4)
        else if listStarts "false".data cs' then some (Json.bool false, cs'.drop 5)
        else if listStarts "null".data cs' then some (Json.null, cs'.drop 4)
        else if listStarts "NaN".data cs' then some (Json.num "NaN", cs'.drop 3)
        else if listStarts "Infinity".data cs' then some (Json.num "Infinity", cs'.drop 8)
        else if listStarts "-Infinity".data cs' then some (Json.num "-Infinity", cs'.drop 9)
        else
          match pNumber cs' with
          | some (lex, rest) => some (Json.num (String.mk lex), rest)
          | none => none

/-- Parse the members of a JSON object after its `{` (at least one
member present), accumulating with last-wins `objInsert` like `dict`. -/
def pMembers : Nat → List Char → List (String × Json) →
    Option (Json × List Char)
  | 0, _, _ => none
  | fuel + 1, cs, acc =>
      match skipWs cs with
      | '"' :: rest =>
          (match pString rest with
           | none => none
           | some (key, rest2) =>
              match skipWs rest2 with
              | ':' :: rest3 =>
                  (match pValue fuel rest3 with
                   | none => none
                   | some (v, rest4) =>
                      let acc2 := Json.objInsert acc (String.mk key) v
                      match skipWs rest4 with
                      | ',' :: rest5 => pMembers fuel rest5 acc2
                      | '\x7d' :: rest5 => some (Json.obj acc2, rest5)
                      | _ => none)
              | _ => none)
      | _ => none

/-- Parse the elements of a JSON array after its `[` (at least one
element present). -/
def pElems : Nat → List Char → List Json → Option (Json × List Char)
  | 0, _, _ => none
  | fuel + 1, cs, acc =>
      match pValue fuel cs with
      | none => none
      | some (v, rest) =>
          match skipWs rest with
          | ',' :: rest2 => pElems fuel rest2 (acc ++ [v])
          | ']' :: rest2 => some (Json.arr (acc ++ [v]), rest2)
          | _ => none

end

/-- `json.loads`: parse one JSON document, requiring only whitespace
around it.  (Leading/trailing whitespace is trimmed up front, which is
extensionally the behaviour of `json.loads`.) -/
def jsonParse (s : String) : Option Json :=
  let cs := trimJson s.data
  match pValue (2 * cs.length + 2) cs with
  | some (v, rest) => if (skipWs rest).isEmpty then some v else none
  | none => none

end HIA

namespace HIA

/-! ### External collaborators: the environment

`config/settings.py` reads endpoint URLs, the model configuration and
the processing language from environment variables once at start-up;
`ProcessingSettings.default_start_page`/`default_end_page` are the
literals 1 and 10.  The two LLM clients, the `requests` calls, the
filesystem and the clock are the program's only non-determinism; an
`Env` value fixes one behaviour for each of them, and all theorems
quantify over `Env`. -/

/-- The configuration surface (`config/settings.py`) that the embedded
code reads: one string per HF endpoint plus the processing language. -/
structure Settings where
  api_ner : String
  api_classify : String
  api_summarize : String
  api_describe_image : String
  api_signature : String
  api_stamp : String
  api_extract_text : String
  api_extract_tables : String
  api_translate : String
  language : String

/-- `ProcessingSettings.default_start_page` (dataclass literal). -/
def default_start_page : Nat := 1

/-- `ProcessingSettings.default_end_page` (dataclass literal). -/
def default_end_page : Nat := 10

/-- Outcome of `open(path, 'rb')`: success, `FileNotFoundError` (the
one `OSError` the HTTP layer catches), or another `OSError` such as
`PermissionError`/`IsADirectoryError` (which nothing catches). -/
inductive OpenOutcome where
  | opened : OpenOutcome
  | fileNotFound : OpenOutcome
  | otherOSError (msg : String) : OpenOutcome

/-- Outcome of one `requests.post`: either the library raises a
`requests.RequestException` (connection error, timeout) carrying
`str(e)`, or a response arrives with a status code, a reason phrase and
a body. -/
inductive HttpOutcome where
  | netError (msg : String) : HttpOutcome
  | response (status : Nat) (reason body : String) : HttpOutcome

/-- One fixed behaviour of every external collaborator.
`oracle` is `ChatGoogleGenerativeAI.invoke` in `think_node`, keyed by
exactly the data rendered into its prompt (files, current step, last
observation, iteration); `decideLLM` is `ChatOpenAI.invoke` in
`make_decision`, keyed by the claim data rendered into its prompt;
either may raise (client/network errors are not caught anywhere).
`httpFile` is keyed by url, file path and extra form data (the
`filename` field is a pure function of the path). -/
structure Env where
  settings : Settings
  oracle : Json → Json → String → Nat → Except PyErr String
  decideLLM : Json → Except PyErr String
  openResult : String → OpenOutcome
  httpFile : String → String → Option (List (String × String)) → HttpOutcome
  httpText : String → Json → Option (List (String × String)) → HttpOutcome
  reportDirRes : Except PyErr Unit
  reportWriteRes : Except PyErr Unit
  now : String

/-! ### `src/utils/http_client.py` -/

/-- `str(e)` for the `requests.HTTPError` raised by
`response.raise_for_status()` on a 4xx/5xx status. -/
def raiseForStatusMsg (status : Nat) (reason url : String) : String :=
  if status < 500 then
    toString status ++ " Client Error: " ++ reason ++ " for url: " ++ url
  else
    toString status ++ " Server Error: " ++ reason ++ " for url: " ++ url

/-- `str(e)` for the `requests.exceptions.JSONDecodeError` raised by
`response.json()` on a malformed body (the exact CPython message text
is not reproduced; no claim inspects it). -/
def jsonBodyErrMsg (body : String) : String :=
  "Expecting value: " ++ body

/-- `call_api_with_file`: upload one file.  `RequestException` (network
errors, 4xx/5xx after `raise_for_status`, malformed JSON bodies — in
requests ≥ 2.27 `JSONDecodeError` is a `RequestException`) and
`FileNotFoundError` are caught and turned into `{"error": str(e)}`
markers; a non-string path (`TypeError` from `open`) and other
`OSError`s propagate. -/
def call_api_with_file (env : Env) (url : String) (path : Json)
    (extra : Option (List (String × String))) : Except PyErr Json :=
  match path with
  | Json.str p =>
      match env.openResult p with
      | .otherOSError msg => .error (.osError msg)
      | .fileNotFound =>
          .ok (Json.obj [("error", Json.str ("File not found: " ++ p))])
      | .opened =>
          match env.httpFile url p extra with
          | .netError msg => .ok (Json.obj [("error", Json.str msg)])
          | .response status reason body =>
              if 400 ≤ status ∧ status < 600 then
                .ok (Json.obj
                  [("error", Json.str (raiseForStatusMsg status reason url))])
              else
                match jsonParse body with
                | some v => .ok v
                | none =>
                    .ok (Json.obj [("error", Json.str (jsonBodyErrMsg body))])
  | _ => .error (.typeError "expected str, bytes or os.PathLike object")

/-- `call_api_with_text`: post one text.  No file is opened, and every
failure mode is a `RequestException`, so this call always returns. -/
def call_api_with_text (env : Env) (url : String) (text : Json)
    (extra : Option (List (String × String))) : Except PyErr Json :=
  match env.httpText url text extra with
  | .netError msg => .ok (Json.obj [("error", Json.str msg)])
  | .response status reason body =>
      if 400 ≤ status ∧ status < 600 then
        .ok (Json.obj [("error", Json.str (raiseForStatusMsg status reason url))])
      else
        match jsonParse body with
        | some v => .ok v
        | none => .ok (Json.obj [("error", Json.str (jsonBodyErrMsg body))])

/-- `process_files_batch`: the list comprehension
`[call_api_with_file(url, path, extra_data) for path in file_paths]` —
item calls run left to right; an uncaught exception from one call
propagates out of the comprehension. -/
def process_files_batch (env : Env) (url : String) (file_paths : Json)
    (extra : Option (List (String × String))) : Except PyErr (List Json) := do
  let paths ← Json.pyIter file_paths
  paths.mapM (fun p => call_api_with_file env url p extra)

/-- `process_texts_batch`: the analogous comprehension over texts. -/
def process_texts_batch (env : Env) (url : String) (texts : Json)
    (extra : Option (List (String × String))) : Except PyErr (List Json) := do
  let ts ← Json.pyIter texts
  ts.mapM (fun t => call_api_with_text env url t extra)

end HIA

namespace HIA

/-! ### `src/processors/ingestion.py` -/

/-- `ingest_files`: keep the truthy file paths (the comprehension
`[fp for fp in file_paths if fp]`). -/
def ingest_files (file_paths : Json) : Except PyErr Json := do
  let fps ← Json.pyIter file_paths
  let valid_files := fps.filter Json.pyTruthy
  pure (Json.obj [("uploaded_files", Json.arr valid_files),
                  ("documents", Json.arr valid_files)])

/-! ### `src/processors/preprocessing.py` -/

/-- `split_documents`: tag every document with type `unknown`. -/
def split_documents (documents : Json) : Except PyErr Json := do
  let docs ← Json.pyIter documents
  pure (Json.arr (docs.map (fun doc =>
    Json.obj [("type", Json.str "unknown"), ("path", doc)])))

/-- `describe_images` as called from `preprocess_documents`
(`start_page`/`end_page` are `None`, so `extra_data or None` is `None`). -/
def describe_images (env : Env) (document_paths : Json) :
    Except PyErr (List Json) :=
  process_files_batch env env.settings.api_describe_image document_paths none

/-- `detect_stamps`. -/
def detect_stamps (env : Env) (document_paths : Json) :
    Except PyErr (List Json) :=
  process_files_batch env env.settings.api_stamp document_paths none

/-- `verify_signatures`. -/
def verify_signatures (env : Env) (document_paths : Json) :
    Except PyErr (List Json) :=
  process_files_batch env env.settings.api_signature document_paths none

/-- `preprocess_documents`: the four sub-steps in dict-literal order. -/
def preprocess_documents (env : Env) (documents : Json) :
    Except PyErr Json := do
  let pd ← split_documents documents
  let ids ← describe_images env documents
  let sds ← detect_stamps env documents
  let svs ← verify_signatures env documents
  pure (Json.obj [("processed_documents", pd),
                  ("image_descriptions", Json.arr ids),
                  ("stamp_detections", Json.arr sds),
                  ("signature_verifications", Json.arr svs)])

/-! ### `src/processors/extraction.py` -/

/-- `extract_text` as called from `extract_data` (page bounds default
to the settings literals 1 and 10). -/
def extract_text (env : Env) (document_paths : Json) :
    Except PyErr (List Json) :=
  process_files_batch env env.settings.api_extract_text document_paths
    (some [("start_page", toString default_start_page),
           ("end_page", toString default_end_page)])

/-- `extract_tables` as called from `extract_data`. -/
def extract_tables (env : Env) (document_paths : Json) :
    Except PyErr (List Json) :=
  process_files_batch env env.settings.api_extract_tables document_paths
    (some [("start_page", toString default_start_page),
           ("end_page", toString default_end_page)])

/-- `translate_texts` as called from `extract_data` (target language
defaults to the configured processing language). -/
def translate_texts (env : Env) (texts : Json) : Except PyErr (List Json) :=
  process_texts_batch env env.settings.api_translate texts
    (some [("target_language", env.settings.language)])

/-- `extract_data`: text then tables, then translate the raw texts
harvested from dict results that carry a `text` key. -/
def extract_data (env : Env) (documents : Json) : Except PyErr Json := do
  let text_results ← extract_text env documents
  let table_results ← extract_tables env documents
  let raw_texts := text_results.filterMap (fun r =>
    match r with
    | Json.obj kvs => Json.objLookup kvs "text"
    | _ => none)
  let translation_results ←
    if raw_texts.isEmpty then pure [] else translate_texts env (Json.arr raw_texts)
  pure (Json.obj [("extracted_text", Json.arr text_results),
                  ("extracted_tables", Json.arr table_results),
                  ("translated_text", Json.arr translation_results)])

/-! ### `src/processors/intelligence.py` -/

/-- `extract_entities`: texts take precedence over document paths by
truthiness; with neither, a single inline error entry. -/
def extract_entities (env : Env) (texts document_paths : Json) :
    Except PyErr (List Json) :=
  if Json.pyTruthy texts then
    process_texts_batch env env.settings.api_ner texts none
  else if Json.pyTruthy document_paths then
    process_files_batch env env.settings.api_ner document_paths none
  else pure [Json.obj [("error", Json.str "No input provided")]]

/-- `classify_documents`. -/
def classify_documents (env : Env) (texts document_paths : Json) :
    Except PyErr (List Json) :=
  if Json.pyTruthy texts then
    process_texts_batch env env.settings.api_classify texts none
  else if Json.pyTruthy document_paths then
    process_files_batch env env.settings.api_classify document_paths none
  else pure [Json.obj [("error", Json.str "No input provided")]]

/-- `summarize` as called from `analyze_intelligence` (page bounds are
the signature defaults 1 and 1). -/
def summarize (env : Env) (texts document_paths : Json) :
    Except PyErr (List Json) :=
  let extra := some [("start_page", "1"), ("end_page", "1")]
  if Json.pyTruthy texts then
    process_texts_batch env env.settings.api_summarize texts extra
  else if Json.pyTruthy document_paths then
    process_files_batch env env.settings.api_summarize document_paths extra
  else pure [Json.obj [("error", Json.str "No input provided")]]

/-- `label.upper()`: ASCII upper-casing of a string, `AttributeError`
on any other value. -/
def pyUpperJ (label : Json) : Except PyErr String :=
  match label with
  | Json.str s => .ok (String.mk (s.data.map Char.toUpper))
  | _ => .error (.attributeError "upper")

/-- The mutable `claim` dict built by `structure_claim_json`, split
into its seven slots. -/
structure ClaimAcc where
  patient : List (String × Json)
  provider : List (String × Json)
  policy : List (String × Json)
  diagnosis : List Json
  procedures : List Json
  amounts : List (String × Json)
  dates : List (String × Json)

/-- The empty claim accumulator. -/
def ClaimAcc.init : ClaimAcc := ⟨[], [], [], [], [], [], []⟩

/-- One iteration of the inner entity loop of `structure_claim_json`. -/
def applyEntity (acc : ClaimAcc) (entity : Json) : Except PyErr ClaimAcc := do
  let label ← Json.pyGet entity "label" (Json.str "")
  let labelU ← pyUpperJ label
  let text ← Json.pyGet entity "text" (Json.str "")
  let l := labelU.data
  if pyin "PATIENT".data l then
    pure { acc with patient := Json.objInsert acc.patient "name" text }
  else if pyin "PROVIDER".data l || pyin "HOSPITAL".data l then
    pure { acc with provider := Json.objInsert acc.provider "name" text }
  else if pyin "POLICY".data l then
    pure { acc with policy := Json.objInsert acc.policy "number" text }
  else if pyin "DIAGNOSIS".data l then
    pure { acc with diagnosis := acc.diagnosis ++ [text] }
  else if pyin "PROCEDURE".data l then
    pure { acc with procedures := acc.procedures ++ [text] }
  else if pyin "AMOUNT".data l || pyin "COST".data l then
    pure { acc with amounts := Json.objInsert acc.amounts "total" text }
  else if pyin "DATE".data l then
    pure { acc with dates := Json.objInsert acc.dates "claim_date" text }
  else pure acc

/-- The inner entity loop. -/
def applyEntities (acc : ClaimAcc) : List Json → Except PyErr ClaimAcc
  | [] => pure acc
  | e :: es => do applyEntities (← applyEntity acc e) es

/-- The outer group loop: skip non-dicts and dicts without an
`entities` key; iterate the `entities` value otherwise. -/
def applyGroups (acc : ClaimAcc) : List Json → Except PyErr ClaimAcc
  | [] => pure acc
  | g :: gs =>
      match g with
      | Json.obj kvs =>
          if (Json.objLookup kvs "entities").isSome then do
            let es ← Json.pyIter (Json.objGet kvs "entities" (Json.arr []))
            let acc' ← applyEntities acc es
            applyGroups acc' gs
          else applyGroups acc gs
      | _ => applyGroups acc gs

/-- Render the claim accumulator back into the `claim` dict shape. -/
def renderClaim (acc : ClaimAcc) (tables : Json) : Json :=
  Json.obj [("patient", Json.obj acc.patient),
            ("provider", Json.obj acc.provider),
            ("policy", Json.obj acc.policy),
            ("diagnosis", Json.arr acc.diagnosis),
            ("procedures", Json.arr acc.procedures),
            ("amounts", Json.obj acc.amounts),
            ("dates", Json.obj acc.dates),
            ("tables", tables)]

/-- `structure_claim_json`. -/
def structure_claim_json (entities : List Json) (tables : Json) :
    Except PyErr Json := do
  let acc ← applyGroups ClaimAcc.init entities
  pure (Json.obj [("claim_json", renderClaim acc tables),
                  ("raw_entities", Json.arr entities),
                  ("raw_tables", tables)])

/-- `analyze_intelligence`: NER, classification, claim structuring and
summarization over the supplied texts. -/
def analyze_intelligence (env : Env)
    (extracted_texts extracted_tables : Json) : Except PyErr Json := do
  let entities ← extract_entities env extracted_texts Json.null
  let classifications ← classify_documents env extracted_texts Json.null
  let claim_json ← structure_claim_json entities extracted_tables
  let summaries ← summarize env extracted_texts Json.null
  pure (Json.obj [("entities", Json.arr entities),
                  ("classifications", Json.arr classifications),
                  ("claim_json", claim_json),
                  ("summaries", Json.arr summaries)])

/-! ### `src/processors/decision.py` -/

/-- `_parse_decision`: keyword scan over the stripped, lower-cased
response; `approve` is checked before `reject`, anything else is
`query`; the reasons are the text after the first `Reasons:` marker
(stripped), else the whole response. -/
def parse_decision (response_text : String) : String × String :=
  let text := pylower (pystrip response_text.data)
  let decision :=
    if pyin "approve".data text then "approve"
    else if pyin "reject".data text then "reject"
    else "query"
  let reasons :=
    if pyin "Reasons:".data response_text.data then
      String.mk (pystrip (afterFirst response_text.data "Reasons:".data))
    else response_text
  (decision, reasons)

/-- `make_decision`: render the claim into the decision prompt, invoke
the ChatOpenAI model (which may raise — nothing catches it), parse. -/
def make_decision (env : Env) (claim_json : Json) : Except PyErr Json := do
  let response ← env.decideLLM claim_json
  let (decision, reasons) := parse_decision response
  pure (Json.obj [("decision", Json.str decision),
                  ("reasons", Json.str reasons)])

/-! ### `src/processors/output.py` -/

/-- `generate_report`: `reports/` mkdir, then the report-file writes;
either may raise an uncaught `OSError` (from `env`), and a non-dict
`claim_data` raises `AttributeError` at `claim_data.get("claim_id")`.
Returns the two report paths; the written report text is an opaque
sink and is not modelled. -/
def generate_report (env : Env) (claim_data _decision _reasons : Json) :
    Except PyErr Json := do
  let _ ← env.reportDirRes
  let claim_id ← Json.pyGet claim_data "claim_id" (Json.str "unknown")
  let json_path := "reports/report_" ++ Json.pyToStr claim_id ++ ".json"
  let pdf_path := "reports/report_" ++ Json.pyToStr claim_id ++ ".pdf"
  let _ ← env.reportWriteRes
  pure (Json.obj [("json_report", Json.str json_path),
                  ("pdf_report", Json.str pdf_path)])

/-- `store_to_database`: placeholder that logs and returns `True`. -/
def store_to_database (_data : Json) : Bool := true

/-- `generate_output`. -/
def generate_output (env : Env) (claim_data decision reasons : Json) :
    Except PyErr Json := do
  let reports ← generate_report env claim_data decision reasons
  let stored := store_to_database claim_data
  pure (Json.obj [("reports", reports), ("stored_in_db", Json.bool stored)])

end HIA

namespace HIA

/-! ### `src/agent/react_agent.py` -/

/-- Python `key in x` membership test: key lookup for dicts, `==`
against the elements for lists, substring for strings, `TypeError`
otherwise (evaluated before the `and` short-circuits in `act_node`). -/
def pyMem (k : String) (x : Json) : Except PyErr Bool :=
  match x with
  | Json.obj kvs => .ok (Json.objLookup kvs k).isSome
  | Json.arr xs => .ok (xs.any (fun e => e.eqStr k))
  | Json.str s => .ok (pyin k.data s.data)
  | _ => .error (.typeError "argument is not iterable")

/-- The `AgentState` TypedDict.  `observation` is always a `str` (every
`execute_action` branch returns one); the fields the oracle may fill
keep the full `Json` range. -/
structure AgentState where
  messages : List Json
  current_step : Json
  thought : Json
  action : Json
  action_input : Json
  observation : String
  iteration : Nat
  is_complete : Bool
  final_result : Json
  claim_decision : Json

/-- `x[key]` on a constructed result dict (`KeyError` impossible at the
call sites below, where the key was just built; modelled as the
`default`-free lookup). -/
def pyIndex (x : Json) (k : String) : Except PyErr Json :=
  match x.lookup k with
  | some v => .ok v
  | none => .error (.typeError ("KeyError: " ++ k))

/-- `len(x)`: `TypeError` on an unsized value. -/
def pyLen (x : Json) : Except PyErr Nat :=
  match x with
  | Json.arr xs => .ok xs.length
  | Json.obj kvs => .ok kvs.length
  | Json.str s => .ok s.data.length
  | _ => .error (.typeError "object has no len")

/-- `x[:100]` string slicing for the decide observation (`TypeError`
on a non-string, which cannot occur there). -/
def pySlice100 (x : Json) : Except PyErr String :=
  match x with
  | Json.str s => .ok (String.mk (s.data.take 100))
  | _ => .error (.typeError "value is not subscriptable")

/-- `list(x.keys())`: the keys of a dict, `AttributeError` otherwise. -/
def dict_keys (x : Json) : Except PyErr (List Json) :=
  match x with
  | Json.obj kvs => pure (kvs.map (fun p => Json.str p.1))
  | _ => Except.error (.attributeError "keys")

/-- `execute_action`: dispatch on the proposed action; the `decide`
branch also stores its result into `state["claim_decision"]`.  An
unrecognised action falls through to the `Unknown action` observation.
Stage handlers run outside any `try`/`except`, so their exceptions
propagate to the caller. -/
def execute_action (env : Env) (action action_input : Json)
    (state : AgentState) : Except PyErr (String × AgentState) := do
  let files ← Json.pyGet action_input "files" (Json.arr [])
  if action.eqStr "ingest" then do
    let result ← ingest_files files
    let docs ← pyIndex result "documents"
    let n ← pyLen docs
    pure ("Ingested " ++ toString n ++ " files successfully.", state)
  else if action.eqStr "preprocess" then do
    let result ← preprocess_documents env files
    let stamps ← pyIndex result "stamp_detections"
    let nStamps ← pyLen stamps
    let sigs ← pyIndex result "signature_verifications"
    let nSigs ← pyLen sigs
    pure ("Preprocessed documents. Stamps: " ++ toString nStamps ++
          ", Signatures: " ++ toString nSigs, state)
  else if action.eqStr "extract" then do
    let result ← extract_data env files
    let texts ← pyIndex result "extracted_text"
    let nTexts ← pyLen texts
    let tables ← pyIndex result "extracted_tables"
    let nTables ← pyLen tables
    pure ("Extracted text from " ++ toString nTexts ++ " docs, tables from " ++
          toString nTables ++ " docs.", state)
  else if action.eqStr "analyze" then do
    let texts ← Json.pyGet action_input "texts" (Json.arr [])
    let tables ← Json.pyGet action_input "tables" (Json.arr [])
    let result ← analyze_intelligence env texts tables
    let entities ← pyIndex result "entities"
    let nEntities ← pyLen entities
    pure ("Analysis complete. Entities: " ++ toString nEntities ++
          ", Claim JSON structured.", state)
  else if action.eqStr "decide" then do
    let claim_json ← Json.pyGet action_input "claim_json" (Json.obj [])
    let result ← make_decision env claim_json
    let state := { state with claim_decision := result }
    let decision ← pyIndex result "decision"
    let reasons ← pyIndex result "reasons"
    let reasons100 ← pySlice100 reasons
    pure ("Decision: " ++ Json.pyToStr decision ++ ". Reasons: " ++
          reasons100 ++ "...", state)
  else if action.eqStr "output" then do
    let claim_data ← Json.pyGet action_input "claim_data" (Json.obj [])
    let decision ← Json.pyGet action_input "decision" (Json.str "query")
    let reasons ← Json.pyGet action_input "reasons" (Json.str "")
    let result ← generate_output env claim_data decision reasons
    let reports ← pyIndex result "reports"
    let keys ← dict_keys reports
    let stored ← pyIndex result "stored_in_db"
    pure ("Reports generated: " ++ Json.pyRepr (Json.arr keys) ++
          ". Stored in DB: " ++ Json.pyToStr stored, state)
  else if action.eqStr "finish" then
    pure ("COMPLETE", state)
  else
    pure ("Unknown action: " ++ Json.pyToStr action, state)

/-- The fenced-payload extraction of `think_node`: strip, then cut the
text after the first ` ```json ` (or ` ``` `) marker at the next
` ``` `.  Python's `split(sep)[1].split(m)[0]` is the text between
the first two occurrences of `sep`, cut at the first following fence
marker `m`; since `sep` itself starts with the marker, the cut at the
next marker lands no later than the next `sep`, so taking everything
after the first `sep` and cutting at the first marker (as below) is
the same prefix. -/
def extract_content (response : String) : List Char :=
  let content := pystrip response.data
  if pyin "```json".data content then
    beforeFirst (afterFirst content "```json".data) "```".data
  else if pyin "```".data content then
    beforeFirst (afterFirst content "```".data) "```".data
  else content

/-- The parsing stage of `think_node`: `json.loads` on the extracted
content followed by the three `parsed.get` field reads, with the
`except json.JSONDecodeError` fallback.  A response that decodes to a
non-dict value reaches `parsed.get` and raises `AttributeError`, which
the `except` clause does not catch. -/
def think_parse (response : String) : Except PyErr (Json × Json × Json) :=
  match jsonParse (String.mk (extract_content response)) with
  | some (Json.obj kvs) =>
      .ok (Json.objGet kvs "thought" (Json.str ""),
           Json.objGet kvs "action" (Json.str "finish"),
           Json.objGet kvs "action_input" (Json.obj []))
  | some _ => .error (.attributeError "get")
  | none =>
      .ok (Json.str "Failed to parse response, finishing.",
           Json.str "finish", Json.obj [])

/-- `state.get("messages", [{}])[0].get("files", []) if
state.get("messages") else []` — the file list rendered into the
prompt. -/
def first_msg_files (s : AgentState) : Except PyErr Json :=
  match s.messages with
  | [] => pure (Json.arr [])
  | m :: _ => Json.pyGet m "files" (Json.arr [])

/-- `think_node`: render the prompt inputs, invoke the Gemini oracle
(which may raise), parse its response. -/
def think_node (env : Env) (s : AgentState) : Except PyErr AgentState := do
  let files ← first_msg_files s
  let response ← env.oracle files s.current_step s.observation s.iteration
  let (t, a, i) ← think_parse response
  pure { s with thought := t, action := a, action_input := i }

/-- The `files`-defaulting of `act_node`: when the proposal has no
`files` key and a first message exists, copy its `files` into the
action input (mutating the proposal dict). -/
def default_files (s : AgentState) (hasFiles : Bool) : Except PyErr Json :=
  if hasFiles then pure s.action_input
  else match s.messages with
    | [] => pure s.action_input
    | m :: _ => do
        let fv ← Json.pyGet m "files" (Json.arr [])
        Json.pySetItem s.action_input "files" fv

/-- `act_node`: default `files` from the first message when the
proposal omitted it, then dispatch; the observation, current step and
(possibly mutated) action input are folded into the state. -/
def act_node (env : Env) (s : AgentState) : Except PyErr AgentState := do
  let action := s.action
  let hasFiles ← pyMem "files" s.action_input
  let action_input ← default_files s hasFiles
  let (observation, s') ← execute_action env action action_input s
  pure { s' with observation := observation, current_step := action,
                 action_input := action_input }

/-- `observe_node`: mark completion on `COMPLETE`/`finish` (recording a
full final result), then increment the iteration, then enforce the
safety cap of 10 (overwriting the final result when it fires). -/
def observe_node (s : AgentState) : AgentState :=
  let s1 :=
    if s.observation == "COMPLETE" || s.action.eqStr "finish" then
      { s with is_complete := true,
               final_result := Json.obj
                 [("status", Json.str "complete"),
                  ("steps_taken", Json.num (toString s.iteration)),
                  ("last_step", s.current_step),
                  ("last_observation", Json.str s.observation)] }
    else s
  let s2 := { s1 with iteration := s1.iteration + 1 }
  if s2.iteration > 10 then
    { s2 with is_complete := true,
              final_result := Json.obj
                [("status", Json.str "max_iterations_reached")] }
  else s2

/-- `should_continue`: the conditional edge out of `observe`. -/
def should_continue (s : AgentState) : String :=
  if s.is_complete then "end" else "think"

/-- One `think → act → observe` pass of the compiled graph. -/
def reactCycle (env : Env) (s : AgentState) : Except PyErr AgentState := do
  let s1 ← think_node env s
  let s2 ← act_node env s1
  pure (observe_node s2)

/-- Result of driving the graph: normal return, an uncaught exception,
or the executor's recursion limit (modelled in whole cycles). -/
inductive LoopOutcome where
  | finished (s : AgentState) : LoopOutcome
  | crashed (e : PyErr) : LoopOutcome
  | fuelOut (s : AgentState) : LoopOutcome

/-- Drive the graph from `think` until `should_continue` routes to
`END`, an exception propagates, or `fuel` cycles elapse; also counts
the cycles executed. -/
def loopRun (env : Env) : Nat → AgentState → LoopOutcome × Nat
  | 0, s => (.fuelOut s, 0)
  | fuel + 1, s =>
      match reactCycle env s with
      | .error e => (.crashed e, 1)
      | .ok s' =>
          if should_continue s' == "end" then (.finished s', 1)
          else
            let r := loopRun env fuel s'
            (r.1, r.2 + 1)

/-- LangGraph's default recursion limit, in whole cycles — a generous
stand-in (the theorems below show 11 cycles are never exceeded, so the
limit is unreachable from `run_agent`'s initial state). -/
def graphRecursionLimit : Nat := 25

/-- The `initial_state` dict built by `run_agent`. -/
def initial_state (uploaded_files : List String) : AgentState :=
  { messages := [Json.obj [("files", Json.arr (uploaded_files.map Json.str))]],
    current_step := Json.str "start",
    thought := Json.str "",
    action := Json.str "",
    action_input := Json.obj [],
    observation := "",
    iteration := 0,
    is_complete := false,
    final_result := Json.obj [],
    claim_decision := Json.obj [] }

/-- `run_agent`: build the initial state, invoke the graph, and shape
the public result record. -/
def run_agent (env : Env) (uploaded_files : List String) :
    Except PyErr Json :=
  match (loopRun env graphRecursionLimit (initial_state uploaded_files)).1 with
  | .crashed e => .error e
  | .fuelOut _ => .error .graphRecursionError
  | .finished result =>
      .ok (Json.obj
        [("claim_decision", result.claim_decision),
         ("status",
          Json.str (if result.is_complete then "completed" else "incomplete")),
         ("iterations", Json.num (toString result.iteration))])

/-! ### Concrete environments and payloads for witnesses -/

/-- The plain fence marker ` ``` ` as characters. -/
def fenceM : List Char := ['`', '`', '`']

/-- The ` ```json ` fence marker as characters. -/
def fenceJ : List Char := ['`', '`', '`', 'j', 's', 'o', 'n']

/-! ### Concrete witness environments -/

/-- A fixed settings record for the concrete witness environments. -/
def stubSettings : Settings :=
  ⟨"u_ner", "u_cls", "u_sum", "u_img", "u_sig", "u_stamp", "u_text",
   "u_tab", "u_tr", "en"⟩

/-- A benign environment with a parameterised oracle: every remote call
succeeds with a tiny JSON body and the filesystem cooperates. -/
def baseEnv (oracle : Json → Json → String → Nat → Except PyErr String) :
    Env :=
  { settings := stubSettings
    oracle := oracle
    decideLLM := fun _ => .ok "Decision: approve\nReasons: fine"
    openResult := fun _ => .opened
    httpFile := fun _ _ _ => .response 200 "OK" "\x7b\"ok\": true\x7d"
    httpText := fun _ _ _ => .response 200 "OK" "\x7b\"ok\": true\x7d"
    reportDirRes := .ok ()
    reportWriteRes := .ok ()
    now := "2026-01-01T00:00:00" }

/-- An oracle whose answers never parse: the agent fail-softs into
`finish` on the first cycle. -/
def envJunkOracle : Env := baseEnv (fun _ _ _ _ => .ok "no json here")

/-- An adversarial oracle that proposes `ingest` forever: only the
iteration cap stops the run. -/
def envAdversarial : Env :=
  baseEnv (fun _ _ _ _ => .ok "\x7b\"action\": \"ingest\"\x7d")

/-- An environment in which `locked.pdf` is unreadable: `open` raises
`PermissionError`, which the HTTP layer does not catch. -/
def envPermDenied : Env :=
  { baseEnv (fun _ _ _ _ => .ok "no json here") with
    openResult := fun p =>
      if p == "locked.pdf" then .otherOSError "Permission denied" else .opened }

/-- An environment in which `gone.pdf` is missing (`FileNotFoundError`)
and every other file is fine. -/
def envMissingMiddle : Env :=
  { baseEnv (fun _ _ _ _ => .ok "no json here") with
    openResult := fun p =>
      if p == "gone.pdf" then .fileNotFound else .opened }

/-- An oracle that answers with a bare JSON number. -/
def envNonDictOracle : Env := baseEnv (fun _ _ _ _ => .ok "7")

/-- An oracle that proposes `decide` while the decision model's client
raises a connection error. -/
def envDecideCrash : Env :=
  { baseEnv (fun _ _ _ _ => .ok "\x7b\"action\": \"decide\"\x7d") with
    decideLLM := fun _ =>
      .error (.externalError "APIConnectionError" "Connection error.") }

/-- A valid structured payload whose `thought` text carries a fenced
snippet. -/
def backtickPayload : String :=
  "\x7b\"thought\":\"```7```\",\"action\":\"ingest\",\"action_input\":\x7b\x7d\x7d"

/-! ### Lemmas and claim theorems -/

/-- Inversion for a successful `Except` bind. -/
theorem bindOkInv {α β : Type} {x : Except PyErr α} {f : α → Except PyErr β}
    {b : β} (h : x >>= f = .ok b) : ∃ a, x = .ok a ∧ f a = .ok b := by
  cases x with
  | error e => simp [Bind.bind, Except.bind] at h
  | ok a => exact ⟨a, rfl, by simpa [Bind.bind, Except.bind] using h⟩

/-- `execute_action` only ever writes the `claim_decision` slot of the
state (and only in the `decide` branch). -/
theorem execute_action_state {env : Env} {a i : Json} {st : AgentState}
    {r : String × AgentState} (h : execute_action env a i st = .ok r) :
    ∃ cd, r.2 = { st with claim_decision := cd } := by
  unfold execute_action at h
  obtain ⟨files, -, h⟩ := bindOkInv h
  split at h
  · obtain ⟨res, -, h⟩ := bindOkInv h
    obtain ⟨docs, -, h⟩ := bindOkInv h
    obtain ⟨n, -, h⟩ := bindOkInv h
    exact ⟨st.claim_decision, by cases h; rfl⟩
  split at h
  · obtain ⟨res, -, h⟩ := bindOkInv h
    obtain ⟨stamps, -, h⟩ := bindOkInv h
    obtain ⟨nStamps, -, h⟩ := bindOkInv h
    obtain ⟨sigs, -, h⟩ := bindOkInv h
    obtain ⟨nSigs, -, h⟩ := bindOkInv h
    exact ⟨st.claim_decision, by cases h; rfl⟩
  split at h
  · obtain ⟨res, -, h⟩ := bindOkInv h
    obtain ⟨texts, -, h⟩ := bindOkInv h
    obtain ⟨nTexts, -, h⟩ := bindOkInv h
    obtain ⟨tables, -, h⟩ := bindOkInv h
    obtain ⟨nTables, -, h⟩ := bindOkInv h
    exact ⟨st.claim_decision, by cases h; rfl⟩
  split at h
  · obtain ⟨texts, -, h⟩ := bindOkInv h
    obtain ⟨tables, -, h⟩ := bindOkInv h
    obtain ⟨res, -, h⟩ := bindOkInv h
    obtain ⟨entities, -, h⟩ := bindOkInv h
    obtain ⟨n, -, h⟩ := bindOkInv h
    exact ⟨st.claim_decision, by cases h; rfl⟩
  split at h
  · obtain ⟨cj, -, h⟩ := bindOkInv h
    obtain ⟨res, -, h⟩ := bindOkInv h
    obtain ⟨d, -, h⟩ := bindOkInv h
    obtain ⟨rs, -, h⟩ := bindOkInv h
    obtain ⟨r100, -, h⟩ := bindOkInv h
    exact ⟨res, by cases h; rfl⟩
  split at h
  · obtain ⟨cdat, -, h⟩ := bindOkInv h
    obtain ⟨dec, -, h⟩ := bindOkInv h
    obtain ⟨rsn, -, h⟩ := bindOkInv h
    obtain ⟨res, -, h⟩ := bindOkInv h
    obtain ⟨reports, -, h⟩ := bindOkInv h
    obtain ⟨keys, -, h⟩ := bindOkInv h
    obtain ⟨stored, -, h⟩ := bindOkInv h
    exact ⟨st.claim_decision, by cases h; rfl⟩
  split at h
  · exact ⟨st.claim_decision, by cases h; rfl⟩
  · exact ⟨st.claim_decision, by cases h; rfl⟩

/-- `think_node` only rewrites the `thought`/`action`/`action_input`
slots. -/
theorem think_node_state {env : Env} {s t : AgentState}
    (h : think_node env s = .ok t) :
    ∃ th a ai, t = { s with thought := th, action := a, action_input := ai } := by
  unfold think_node at h
  obtain ⟨files, -, h⟩ := bindOkInv h
  obtain ⟨resp, -, h⟩ := bindOkInv h
  obtain ⟨⟨th, a, ai⟩, -, h⟩ := bindOkInv h
  exact ⟨th, a, ai, by cases h; rfl⟩

/-- `act_node` rewrites the observation, the current step (to the
action) and the action input, and passes the `claim_decision` slot
through `execute_action`. -/
theorem act_node_state {env : Env} {s t : AgentState}
    (h : act_node env s = .ok t) :
    ∃ obs inp cd, t = { s with observation := obs, current_step := s.action,
                               action_input := inp, claim_decision := cd } := by
  unfold act_node at h
  obtain ⟨hasF, -, h⟩ := bindOkInv h
  obtain ⟨inp, -, h⟩ := bindOkInv h
  obtain ⟨⟨obs, s'⟩, hexec, h⟩ := bindOkInv h
  obtain ⟨cd, hcd⟩ := execute_action_state hexec
  refine ⟨obs, inp, cd, ?_⟩
  cases h
  have hs2 : s' = { s with claim_decision := cd } := hcd
  rw [hs2]

/-- `observe_node` increments the iteration counter by exactly one. -/
theorem observe_node_iteration (s : AgentState) :
    (observe_node s).iteration = s.iteration + 1 := by
  unfold observe_node
  dsimp only
  split <;> split <;> rfl

/-- When `observe_node` leaves the loop incomplete, the new iteration
count is within the cap of 10. -/
theorem observe_node_cap (s : AgentState)
    (h : (observe_node s).is_complete = false) :
    (observe_node s).iteration ≤ 10 := by
  have : (observe_node s).iteration = s.iteration + 1 ∧
      ((observe_node s).is_complete = false → s.iteration + 1 ≤ 10) := by
    unfold observe_node
    dsimp only
    split <;> split <;> refine ⟨rfl, fun hc => ?_⟩ <;>
      first
      | omega
      | (simp at hc)
  rw [this.1]
  exact this.2 h

/-- One successful cycle advances `iteration` by one, and if it does
not complete the run the new count is still within the cap. -/
theorem reactCycle_ok {env : Env} {s s' : AgentState}
    (h : reactCycle env s = .ok s') :
    s'.iteration = s.iteration + 1 ∧
      (s'.is_complete = false → s'.iteration ≤ 10) := by
  unfold reactCycle at h
  obtain ⟨s1, h1, h⟩ := bindOkInv h
  obtain ⟨s2, h2, h⟩ := bindOkInv h
  cases h
  obtain ⟨th, a, ai, e1⟩ := think_node_state h1
  obtain ⟨obs, inp, cd, e2⟩ := act_node_state h2
  have hit : s2.iteration = s.iteration := by rw [e2, e1]
  refine ⟨by rw [observe_node_iteration, hit], fun hc => observe_node_cap s2 hc⟩

/-- Fuel-generic cycle bound: from iteration `i` the loop runs at most
`11 - min i 10` more cycles and, given at least that much fuel, never
exhausts it. -/
theorem loopRun_bound (env : Env) :
    ∀ fuel (s : AgentState), 11 - min s.iteration 10 ≤ fuel →
      (loopRun env fuel s).2 ≤ 11 - min s.iteration 10 ∧
      ∀ t, (loopRun env fuel s).1 ≠ LoopOutcome.fuelOut t := by
  intro fuel
  induction fuel with
  | zero => intro s h; omega
  | succ n ih =>
    intro s h
    unfold loopRun
    cases hc : reactCycle env s with
    | error e =>
      dsimp only
      refine ⟨by omega, fun t => by simp⟩
    | ok s' =>
      dsimp only
      by_cases hend : should_continue s' == "end"
      · simp only [hend, if_pos]
        exact ⟨by omega, fun t => by simp⟩
      · simp only [hend, Bool.false_eq_true, if_false]
        have hcomp : s'.is_complete = false := by
          unfold should_continue at hend
          by_cases hb : s'.is_complete
          · simp [hb] at hend
          · simpa using hb
        obtain ⟨hiter, hcap⟩ := reactCycle_ok hc
        have hle : s'.iteration ≤ 10 := hcap hcomp
        have hrec := ih s' (by omega)
        refine ⟨?_, fun t => ?_⟩
        · have := hrec.1
          omega
        · exact hrec.2 t

/-- The loop only reaches `finished` through `should_continue`
answering `end`, which requires `is_complete`. -/
theorem loopRun_finished_complete (env : Env) :
    ∀ fuel (s t : AgentState),
      (loopRun env fuel s).1 = LoopOutcome.finished t → t.is_complete = true := by
  intro fuel
  induction fuel with
  | zero => intro s t h; simp [loopRun] at h
  | succ n ih =>
    intro s t h
    unfold loopRun at h
    cases hc : reactCycle env s with
    | error e => rw [hc] at h; simp at h
    | ok s' =>
      rw [hc] at h
      dsimp only at h
      by_cases hend : should_continue s' == "end"
      · rw [if_pos hend] at h
        have ht : t = s' := by
          have : LoopOutcome.finished s' = LoopOutcome.finished t := h
          cases this; rfl
        subst ht
        unfold should_continue at hend
        by_cases hb : t.is_complete
        · exact hb
        · simp [hb] at hend
      · rw [if_neg hend] at h
        exact ih s' t h

/-- Reduction of a successful `Except` bind. -/
theorem bindOkRed {α β : Type} (a : α) (f : α → Except PyErr β) :
    (Except.ok a >>= f) = f a := rfl

/-- Reduction of a pure `Except` bind. -/
theorem bindPureRed {α β : Type} (a : α) (f : α → Except PyErr β) :
    ((pure a : Except PyErr α) >>= f) = f a := rfl

/-- An `Except` error short-circuits a bind. -/
theorem bindErrRed {α β : Type} (e : PyErr) (f : α → Except PyErr β) :
    ((Except.error e : Except PyErr α) >>= f) = .error e := rfl

/-- `eqStr` against a string value is plain string comparison. -/
theorem eqStr_lit (s t : String) : (Json.str s).eqStr t = (s == t) := rfl

/-- A failing decision-model call propagates out of `make_decision`. -/
theorem make_decision_err {env : Env} {cj : Json} {e : PyErr}
    (h : env.decideLLM cj = .error e) : make_decision env cj = .error e := by
  unfold make_decision
  rw [h]
  rfl

/-- A failing decision-model call propagates out of `execute_action`'s
decide branch. -/
theorem execute_action_decide_err {env : Env} {s : AgentState}
    {kvs : List (String × Json)} {e : PyErr}
    (hllm : env.decideLLM (Json.objGet kvs "claim_json" (Json.obj []))
      = .error e) :
    execute_action env (Json.str "decide") (Json.obj kvs) s = .error e := by
  unfold execute_action
  rw [show Json.pyGet (Json.obj kvs) "files" (Json.arr []) =
      .ok (Json.objGet kvs "files" (Json.arr [])) from rfl, bindOkRed]
  simp only [eqStr_lit]
  norm_num
  rw [show Json.pyGet (Json.obj kvs) "claim_json" (Json.obj []) =
      .ok (Json.objGet kvs "claim_json" (Json.obj [])) from rfl, bindOkRed]
  rw [make_decision_err hllm]
  rfl

/-- A match of `sep` needs at least `sep.length` characters. -/
theorem listStarts_length {sep t : List Char}
    (h : listStarts sep t = true) : sep.length ≤ t.length := by
  induction sep generalizing t with
  | nil => simp
  | cons p ps ih =>
    cases t with
    | nil => simp [listStarts] at h
    | cons c cs =>
      simp only [listStarts, Bool.and_eq_true] at h
      simpa using ih h.2

/-- A pattern matches at the start of itself plus anything. -/
theorem listStarts_self_append (x y : List Char) :
    listStarts x (x ++ y) = true := by
  induction x with
  | nil => rfl
  | cons c cs ih => simp [listStarts, ih]

/-- A match of `x ++ y` is in particular a match of `x`. -/
theorem listStarts_of_append {x y t : List Char}
    (h : listStarts (x ++ y) t = true) : listStarts x t = true := by
  induction x generalizing t with
  | nil => rfl
  | cons c cs ih =>
    cases t with
    | nil => simp [listStarts] at h
    | cons d ds =>
      simp only [List.cons_append, listStarts, Bool.and_eq_true] at h ⊢
      exact ⟨h.1, ih h.2⟩

/-- `fsplit` finds nothing exactly when no suffix starts with `sep`. -/
theorem fsplit_none_iff {sep : List Char} (hsep : sep ≠ []) :
    ∀ s : List Char, fsplit sep s = none ↔
      ∀ t, t <:+ s → listStarts sep t = false := by
  intro s
  induction s with
  | nil =>
    simp only [fsplit, true_iff]
    intro t ht
    rw [List.suffix_nil.mp ht]
    cases sep with
    | nil => exact absurd rfl hsep
    | cons p ps => rfl
  | cons c cs ih =>
    constructor
    · intro h t ht
      unfold fsplit at h
      split at h
      · exact absurd h (by simp)
      · rcases List.suffix_cons_iff.mp ht with rfl | ht2
        · simpa using ‹¬listStarts sep (c :: cs) = true›
        · cases hcs : fsplit sep cs with
          | some pr => rw [hcs] at h; exact absurd h (by simp)
          | none => exact (ih.mp hcs) t ht2
    · intro hall
      unfold fsplit
      rw [if_neg (by simp [hall (c :: cs) (List.suffix_refl _)])]
      rw [ih.mpr (fun t ht => hall t (ht.trans (List.suffix_cons c cs)))]

/-- When `sep` matches at position 0, `fsplit` cuts there. -/
theorem fsplit_at_start {sep s : List Char} (hsep : sep ≠ [])
    (h : listStarts sep s = true) :
    fsplit sep s = some ([], s.drop sep.length) := by
  cases s with
  | nil =>
    cases sep with
    | nil => exact absurd rfl hsep
    | cons p ps => simp [listStarts] at h
  | cons c cs => simp [fsplit, h]

/-- When no proper occurrence of `sep` precedes the seam, `fsplit`
finds exactly the seam between `a` and `b`. -/
theorem fsplit_seam {sep : List Char} (hsep : sep ≠ []) :
    ∀ (a b : List Char),
      (∀ t, t <:+ a → t ≠ [] → listStarts sep (t ++ sep ++ b) = false) →
      fsplit sep (a ++ sep ++ b) = some (a, b) := by
  intro a
  induction a with
  | nil =>
    intro b _
    rw [List.nil_append]
    rw [fsplit_at_start hsep (listStarts_self_append sep b)]
    rw [List.drop_left]
  | cons c a' ih =>
    intro b hno
    have hhead : listStarts sep (c :: a' ++ sep ++ b) = false :=
      hno (c :: a') (List.suffix_refl _) (by simp)
    show fsplit sep (c :: (a' ++ sep ++ b)) = _
    unfold fsplit
    rw [if_neg (by
      simp only [List.cons_append, List.append_assoc] at hhead
      simp only [List.append_assoc]
      simp [hhead])]
    rw [ih b (fun t ht hne =>
      hno t (ht.trans (List.suffix_cons c a')) hne)]

/-- A suffix of `xs ++ R` is a suffix of `R` or extends `R` by a suffix
of `xs`. -/
theorem suffix_append_split {R : List Char} :
    ∀ (xs t : List Char), t <:+ xs ++ R →
      t <:+ R ∨ ∃ t2, t = t2 ++ R ∧ t2 <:+ xs := by
  intro xs
  induction xs with
  | nil => intro t ht; exact Or.inl (by simpa using ht)
  | cons x xs ih =>
    intro t ht
    rcases List.suffix_cons_iff.mp ht with rfl | ht2
    · exact Or.inr ⟨x :: xs, by simp, List.suffix_refl _⟩
    · rcases ih t ht2 with h | ⟨t2, rfl, hsuf⟩
      · exact Or.inl h
      · exact Or.inr ⟨t2, rfl, hsuf.trans (List.suffix_cons x xs)⟩

/-- Appending the same tail preserves the suffix relation. -/
theorem suffix_append_same {l m n : List Char} (h : l <:+ m) :
    l ++ n <:+ m ++ n := by
  obtain ⟨u, rfl⟩ := h
  exact ⟨u, by simp⟩

/-- `trimJson` ignores one layer of newline padding. -/
theorem trimJson_pad (x : List Char) :
    trimJson ('\n' :: (x ++ ['\n'])) = trimJson x := by
  unfold trimJson
  rw [List.dropWhile_cons]
  rw [if_pos (by rfl)]
  cases hz : (x.dropWhile jsonWs).isEmpty
  · rw [List.dropWhile_append, hz]
    simp only [Bool.false_eq_true, if_false]
    simp [List.reverse_append, List.dropWhile_cons, jsonWs]
  · rw [List.dropWhile_append, hz]
    simp only [if_true]
    rw [show List.dropWhile jsonWs ['\n'] = ([] : List Char) from rfl]
    rw [List.isEmpty_iff.mp hz]

/-- `str.strip()` is the identity on a string that starts and ends
with a backquote. -/
theorem pystrip_backquoted (x : List Char) :
    pystrip ('`' :: (x ++ ['`'])) = '`' :: (x ++ ['`']) := by
  unfold pystrip
  rw [List.dropWhile_cons, if_neg (by simp [pySpace])]
  simp [List.reverse_append, List.dropWhile_cons, pySpace]

/-- No fence marker matches at a newline. -/
theorem fenceM_not_at_newline (X : List Char) :
    listStarts fenceM ('\n' :: X) = false := by
  show (('`' == '\n') && _) = false
  rw [show ('`' == '\n') = false from rfl, Bool.false_and]

/-- No fence marker matches with a newline in second position. -/
theorem fenceM_not_at_nl2 (x : Char) (X : List Char) :
    listStarts fenceM (x :: '\n' :: X) = false := by
  show (('`' == x) && (('`' == '\n') && _)) = false
  rw [show ('`' == '\n') = false from rfl, Bool.false_and, Bool.and_false]

/-- No fence marker matches with a newline in third position. -/
theorem fenceM_not_at_nl3 (x y : Char) (X : List Char) :
    listStarts fenceM (x :: y :: '\n' :: X) = false := by
  show (('`' == x) && (('`' == y) && (('`' == '\n') && _))) = false
  rw [show ('`' == '\n') = false from rfl, Bool.false_and, Bool.and_false,
      Bool.and_false]

/-- A fence-marker match only looks at the first three characters. -/
theorem fenceM_first3 (x y z : Char) (A B : List Char) :
    listStarts fenceM (x :: y :: z :: A) =
    listStarts fenceM (x :: y :: z :: B) := rfl

/-- If `P` contains no fence marker, then no nonempty suffix of the
padded `'\n' :: P ++ ['\n']` starts a fence-marker match into an
adjacent marker. -/
theorem no_fence_at_seam (P b : List Char)
    (hnf : fsplit fenceM P = none) :
    ∀ t, t <:+ ('\n' :: (P ++ ['\n'])) → t ≠ [] →
      listStarts fenceM (t ++ fenceM ++ b) = false := by
  have hsuf : ∀ t, t <:+ P → listStarts fenceM t = false :=
    (fsplit_none_iff (by decide) P).mp hnf
  intro t ht hne
  rcases List.suffix_cons_iff.mp ht with rfl | ht2
  · exact fenceM_not_at_newline _
  · rcases suffix_append_split P t ht2 with h | ⟨t2, rfl, hsufP⟩
    · rcases List.suffix_cons_iff.mp h with rfl | h2
      · exact fenceM_not_at_newline _
      · exact absurd (List.suffix_nil.mp h2) hne
    · match t2, hsufP with
      | [], _ => exact fenceM_not_at_newline _
      | [x], _ => exact fenceM_not_at_nl2 x _
      | [x, y], _ => exact fenceM_not_at_nl3 x y _
      | x :: y :: z :: t3, hsufP =>
          show listStarts fenceM
            (x :: y :: z :: (t3 ++ ['\n'] ++ fenceM ++ b)) = false
          rw [fenceM_first3 x y z _ t3]
          exact hsuf (x :: y :: z :: t3) hsufP

/-- The `json` fence marker does not match where a newline sits within
its first four characters. -/
theorem fenceJ_not_at_newline (X : List Char) :
    listStarts fenceJ ('\n' :: X) = false := by
  show (('`' == '\n') && _) = false
  rw [show ('`' == '\n') = false from rfl, Bool.false_and]

/-- The `json` marker fails on the plain fence followed by a newline. -/
theorem fenceJ_not_fence_newline (X : List Char) :
    listStarts fenceJ ('`' :: '`' :: '`' :: '\n' :: X) = false := by
  show (('`' == '`') && (('`' == '`') && (('`' == '`') &&
      (('j' == '\n') && _)))) = false
  rw [show ('j' == '\n') = false from rfl, Bool.false_and, Bool.and_false,
      Bool.and_false, Bool.and_false]

/-- Nor on two backquotes followed by a newline. -/
theorem fenceJ_not_bb_newline (X : List Char) :
    listStarts fenceJ ('`' :: '`' :: '\n' :: X) = false := by
  show (('`' == '`') && (('`' == '`') && (('`' == '\n') && _))) = false
  rw [show ('`' == '\n') = false from rfl, Bool.false_and, Bool.and_false,
      Bool.and_false]

/-- Nor on one backquote followed by a newline. -/
theorem fenceJ_not_b_newline (X : List Char) :
    listStarts fenceJ ('`' :: '\n' :: X) = false := by
  show (('`' == '`') && (('`' == '\n') && _)) = false
  rw [show ('`' == '\n') = false from rfl, Bool.false_and, Bool.and_false]

/-- If `P` contains no plain fence marker, the plainly wrapped text
contains no ` ```json ` marker at all. -/
theorem no_fenceJ_in_plain_wrap (P : List Char)
    (hnf : fsplit fenceM P = none) :
    fsplit fenceJ (('`' :: '`' :: '`' :: '\n' :: (P ++ ('\n' :: fenceM))))
      = none := by
  apply (fsplit_none_iff (by decide) _).mpr
  intro t ht
  rcases List.suffix_cons_iff.mp ht with rfl | ht
  · exact fenceJ_not_fence_newline _
  rcases List.suffix_cons_iff.mp ht with rfl | ht
  · exact fenceJ_not_bb_newline _
  rcases List.suffix_cons_iff.mp ht with rfl | ht
  · exact fenceJ_not_b_newline _
  rcases List.suffix_cons_iff.mp ht with rfl | ht
  · exact fenceJ_not_at_newline _
  -- t is a suffix of P ++ '\n' :: fenceM = (P ++ ['\n']) ++ fenceM
  have ht2 : t <:+ (P ++ ['\n']) ++ fenceM := by
    simpa [List.append_assoc] using ht
  rcases suffix_append_split (P ++ ['\n']) t ht2 with h | ⟨t2, rfl, hsufP⟩
  · -- t is a suffix of the trailing fence: too short for the marker
    cases hq : listStarts fenceJ t
    · rfl
    · have h7 := listStarts_length hq
      have h3 : t.length ≤ fenceM.length := h.length_le
      simp [fenceJ] at h7
      simp [fenceM] at h3
      omega
  · -- t = t2 ++ fenceM with t2 a suffix of P ++ ['\n']
    cases hq : listStarts fenceJ (t2 ++ fenceM)
    · rfl
    · exfalso
      have hm : listStarts fenceM (t2 ++ fenceM) = true :=
        listStarts_of_append (x := fenceM) (y := ['j', 's', 'o', 'n']) hq
      by_cases hne : t2 = []
      · subst hne
        rw [show listStarts fenceJ ([] ++ fenceM) = false from rfl] at hq
        exact Bool.false_ne_true hq
      · have hseam := no_fence_at_seam P [] hnf t2
          (hsufP.trans (List.suffix_cons '\n' (P ++ ['\n']))) hne
        rw [List.append_nil] at hseam
        rw [hseam] at hm
        exact Bool.false_ne_true hm

/-- Character data of the `json`-fenced wrapping. -/
theorem data_wrapJson (P : String) :
    ("```json\n" ++ P ++ "\n```").data =
      fenceJ ++ ('\n' :: (P.data ++ ('\n' :: fenceM))) := by
  show ("```json\n".data ++ P.data) ++ "\n```".data = _
  simp [fenceJ, fenceM, List.append_assoc]

/-- Character data of the plainly fenced wrapping. -/
theorem data_wrapPlain (P : String) :
    ("```\n" ++ P ++ "\n```").data =
      fenceM ++ ('\n' :: (P.data ++ ('\n' :: fenceM))) := by
  show ("```\n".data ++ P.data) ++ "\n```".data = _
  simp [fenceM, List.append_assoc]

/-- `strip` leaves both wrappings unchanged (they start and end with a
backquote). -/
theorem pystrip_wrapJson (P : String) :
    pystrip (fenceJ ++ ('\n' :: (P.data ++ ('\n' :: fenceM)))) =
      fenceJ ++ ('\n' :: (P.data ++ ('\n' :: fenceM))) := by
  have h2 : fenceJ ++ ('\n' :: (P.data ++ ('\n' :: fenceM))) =
      '`' :: (('`' :: '`' :: 'j' :: 's' :: 'o' :: 'n' :: '\n' ::
        (P.data ++ ['\n', '`', '`'])) ++ ['`']) := by
    simp [fenceJ, fenceM, List.append_assoc]
  rw [h2, pystrip_backquoted]

/-- Likewise for the plain wrapping. -/
theorem pystrip_wrapPlain (P : String) :
    pystrip (fenceM ++ ('\n' :: (P.data ++ ('\n' :: fenceM)))) =
      fenceM ++ ('\n' :: (P.data ++ ('\n' :: fenceM))) := by
  have h2 : fenceM ++ ('\n' :: (P.data ++ ('\n' :: fenceM))) =
      '`' :: (('`' :: '`' :: '\n' ::
        (P.data ++ ['\n', '`', '`'])) ++ ['`']) := by
    simp [fenceM, List.append_assoc]
  rw [h2, pystrip_backquoted]

/-- Cutting the padded payload at the trailing fence. -/
theorem beforeFirst_padded (P : String)
    (hnf : fsplit fenceM P.data = none) :
    beforeFirst ('\n' :: (P.data ++ ('\n' :: fenceM))) fenceM =
      '\n' :: (P.data ++ ['\n']) := by
  have h4 : '\n' :: (P.data ++ ('\n' :: fenceM)) =
      ('\n' :: (P.data ++ ['\n'])) ++ fenceM ++ [] := by
    simp [List.append_assoc]
  unfold beforeFirst
  rw [h4, fsplit_seam (by decide) _ [] (no_fence_at_seam P.data [] hnf)]

/-- The `json` wrapping extracts to the newline-padded payload. -/
theorem extract_content_wrapJson (P : String)
    (hnf : fsplit fenceM P.data = none) :
    extract_content ("```json\n" ++ P ++ "\n```") =
      '\n' :: (P.data ++ ['\n']) := by
  unfold extract_content
  dsimp only
  rw [data_wrapJson, pystrip_wrapJson]
  have hsplit : fsplit ("```json".data)
      (fenceJ ++ ('\n' :: (P.data ++ ('\n' :: fenceM)))) =
      some ([], '\n' :: (P.data ++ ('\n' :: fenceM))) := by
    rw [show ("```json" : String).data = fenceJ from rfl]
    rw [fsplit_at_start (by decide) (listStarts_self_append fenceJ _),
        List.drop_left]
  rw [if_pos (by unfold pyin; rw [hsplit]; rfl)]
  unfold afterFirst
  rw [hsplit]
  dsimp only
  exact beforeFirst_padded P hnf

/-- The plain wrapping extracts to the same padded payload. -/
theorem extract_content_wrapPlain (P : String)
    (hnf : fsplit fenceM P.data = none) :
    extract_content ("```\n" ++ P ++ "\n```") =
      '\n' :: (P.data ++ ['\n']) := by
  unfold extract_content
  dsimp only
  rw [data_wrapPlain, pystrip_wrapPlain]
  have hnoJ : fsplit ("```json".data)
      (fenceM ++ ('\n' :: (P.data ++ ('\n' :: fenceM)))) = none := by
    rw [show ("```json" : String).data = fenceJ from rfl]
    have h := no_fenceJ_in_plain_wrap P.data hnf
    simpa [fenceM] using h
  rw [if_neg (by unfold pyin; rw [hnoJ]; simp)]
  have hsplit : fsplit ("```".data)
      (fenceM ++ ('\n' :: (P.data ++ ('\n' :: fenceM)))) =
      some ([], '\n' :: (P.data ++ ('\n' :: fenceM))) := by
    rw [show ("```" : String).data = fenceM from rfl]
    rw [fsplit_at_start (by decide) (listStarts_self_append fenceM _),
        List.drop_left]
  rw [if_pos (by unfold pyin; rw [hsplit]; rfl)]
  unfold afterFirst
  rw [hsplit]
  dsimp only
  exact beforeFirst_padded P hnf

/-- A stripped, fence-free payload extracts to itself. -/
theorem extract_content_unwrapped (P : String)
    (hstrip : pystrip P.data = P.data)
    (hnf : fsplit fenceM P.data = none) :
    extract_content P = P.data := by
  unfold extract_content
  dsimp only
  rw [hstrip]
  have hnoJ : fsplit ("```json".data) P.data = none := by
    rw [show ("```json" : String).data = fenceJ from rfl]
    apply (fsplit_none_iff (by decide) _).mpr
    intro t ht
    cases hq : listStarts fenceJ t
    · rfl
    · exfalso
      have hm : listStarts fenceM t = true :=
        listStarts_of_append (x := fenceM) (y := ['j', 's', 'o', 'n']) hq
      have hfalse := (fsplit_none_iff (by decide) P.data).mp hnf t ht
      rw [hfalse] at hm
      exact Bool.false_ne_true hm
  rw [if_neg (by unfold pyin; rw [hnoJ]; simp)]
  rw [if_neg (by
    unfold pyin
    rw [show (['\x60', '\x60', '\x60'] : List Char) = fenceM from rfl, hnf]
    simp)]

/-- `json.loads` ignores the newline padding that fence extraction
leaves around the payload. -/
theorem jsonParse_pad (P : String) :
    jsonParse (String.mk ('\n' :: (P.data ++ ['\n']))) = jsonParse P := by
  unfold jsonParse
  dsimp only
  rw [trimJson_pad]

/-- `mapM` over `Except` with all-succeeding calls: one result per
item, in input order. -/
theorem mapM_ok_of_all_ok {f : Json → Except PyErr Json} :
    ∀ (xs : List Json), (∀ x ∈ xs, ∃ r, f x = .ok r) →
      ∃ rs, xs.mapM f = .ok rs ∧ rs.length = xs.length ∧
        ∀ i x, xs.get? i = some x → ∃ r, rs.get? i = some r ∧ f x = .ok r := by
  intro xs
  induction xs with
  | nil => intro _; exact ⟨[], rfl, rfl, by intro i x hx; simp at hx⟩
  | cons x xs ih =>
    intro hall
    obtain ⟨r, hr⟩ := hall x (List.mem_cons_self x xs)
    obtain ⟨rs, hmap, hlen, hidx⟩ := ih (fun y hy => hall y (List.mem_cons_of_mem x hy))
    refine ⟨r :: rs, ?_, by simp [hlen], ?_⟩
    · rw [List.mapM_cons, hr, hmap]; rfl
    · intro i y hy
      cases i with
      | zero => simp at hy; subst hy; exact ⟨r, rfl, hr⟩
      | succ n =>
        simp only [List.get?] at hy ⊢
        exact hidx n y hy

/-- `call_api_with_text` never raises: every failure mode is caught and
returned as a marker. -/
theorem call_api_with_text_total (env : Env) (url : String) (t : Json)
    (extra : Option (List (String × String))) :
    ∃ j, call_api_with_text env url t extra = .ok j := by
  unfold call_api_with_text
  cases env.httpText url t extra with
  | netError msg => exact ⟨_, rfl⟩
  | response status reason body =>
    dsimp only
    split
    · exact ⟨_, rfl⟩
    · cases jsonParse body
      · exact ⟨_, rfl⟩
      · exact ⟨_, rfl⟩

/-- `call_api_with_file` never raises when opening the file does not
raise an uncaught `OSError` (it may still produce a failure marker). -/
theorem call_api_with_file_total (env : Env) (url p : String)
    (extra : Option (List (String × String)))
    (hopen : ∀ m, env.openResult p ≠ .otherOSError m) :
    ∃ j, call_api_with_file env url (Json.str p) extra = .ok j := by
  unfold call_api_with_file
  dsimp only
  cases ho : env.openResult p with
  | otherOSError m => exact absurd ho (hopen m)
  | fileNotFound => exact ⟨_, rfl⟩
  | opened =>
    dsimp only
    cases env.httpFile url p extra with
    | netError msg => exact ⟨_, rfl⟩
    | response status reason body =>
      dsimp only
      split
      · exact ⟨_, rfl⟩
      · cases jsonParse body
        · exact ⟨_, rfl⟩
        · exact ⟨_, rfl⟩

/-- C1: from any state with `iteration = 0`, under every oracle and
remote behaviour — including one that never proposes `finish` — the
orchestration loop executes at most 11 think/act/observe cycles, and a
fuel budget of 11 is never exhausted: the loop always terminates. -/
theorem C1_loop_runs_at_most_11_cycles (env : Env) (fuel : Nat)
    (s : AgentState) (h0 : s.iteration = 0) (hf : 11 ≤ fuel) :
    (loopRun env fuel s).2 ≤ 11 ∧
    ∀ t, (loopRun env fuel s).1 ≠ LoopOutcome.fuelOut t := by
  have hb := loopRun_bound env fuel s (by rw [h0]; simpa using hf)
  rw [h0] at hb
  simpa using hb

/-- C1 witness: the adversarial oracle drives the loop from the real
initial state; it still uses at most 11 cycles of a 25-cycle budget. -/
theorem C1_loop_runs_at_most_11_cycles_witness :
    (loopRun envAdversarial 25 (initial_state ["claim.pdf"])).2 ≤ 11 ∧
    ∀ t, (loopRun envAdversarial 25 (initial_state ["claim.pdf"])).1 ≠
      LoopOutcome.fuelOut t :=
  C1_loop_runs_at_most_11_cycles envAdversarial 25
    (initial_state ["claim.pdf"]) rfl (by norm_num)

/-- C10: whenever the graph invocation returns normally, the public
record's `status` is `completed` — `incomplete` is unreachable, because
the loop only ends once `is_complete` holds. -/
theorem C10_status_always_completed (env : Env) (files : List String)
    (r : Json) (h : run_agent env files = .ok r) :
    r.lookup "status" = some (Json.str "completed") := by
  unfold run_agent at h
  cases hl : (loopRun env graphRecursionLimit (initial_state files)).1 with
  | crashed e => rw [hl] at h; simp at h
  | fuelOut s => rw [hl] at h; simp at h
  | finished result =>
    rw [hl] at h
    have hcomp := loopRun_finished_complete env graphRecursionLimit
      (initial_state files) result hl
    injection h with h2
    subst h2
    rw [hcomp]
    rfl

/-- C10 witness: a concrete successful run reports `completed`. -/
theorem C10_status_always_completed_witness :
    (Json.obj [("claim_decision", Json.obj []),
               ("status", Json.str "completed"),
               ("iterations", Json.num "1")]).lookup "status" =
      some (Json.str "completed") :=
  C10_status_always_completed envJunkOracle ["w10.pdf"]
    (Json.obj [("claim_decision", Json.obj []),
               ("status", Json.str "completed"),
               ("iterations", Json.num "1")]) rfl

/-- C9 counterexample: a concrete successful run returns only
`claim_decision`/`status`/`iterations` — the record carries no
termination reason and no last observation under any plausible key,
even though the run terminated by fail-soft finish. -/
theorem C9_no_termination_reason_counterexample :
    run_agent envJunkOracle ["claim.pdf"] =
      .ok (Json.obj [("claim_decision", Json.obj []),
                     ("status", Json.str "completed"),
                     ("iterations", Json.num "1")]) ∧
    (Json.obj [("claim_decision", Json.obj []),
               ("status", Json.str "completed"),
               ("iterations", Json.num "1")]).lookup "terminationReason" = none ∧
    (Json.obj [("claim_decision", Json.obj []),
               ("status", Json.str "completed"),
               ("iterations", Json.num "1")]).lookup "termination_reason" = none ∧
    (Json.obj [("claim_decision", Json.obj []),
               ("status", Json.str "completed"),
               ("iterations", Json.num "1")]).lookup "lastObservation" = none ∧
    (Json.obj [("claim_decision", Json.obj []),
               ("status", Json.str "completed"),
               ("iterations", Json.num "1")]).lookup "last_observation" = none :=
  ⟨rfl, rfl, rfl, rfl, rfl⟩

/-- C9 amended: every normal return of `run_agent` is exactly the
record `{claim_decision, status, iterations}` — the decision record and
iteration count are present, but the termination reason and the last
observation are dropped (the internal `final_result` holding them is
discarded). -/
theorem C9_result_record_shape (env : Env) (files : List String)
    (r : Json) (h : run_agent env files = .ok r) :
    (∃ cd st it, r = Json.obj [("claim_decision", cd), ("status", st),
                               ("iterations", it)]) ∧
    (r.lookup "claim_decision").isSome = true ∧
    (r.lookup "status").isSome = true ∧
    (r.lookup "iterations").isSome = true ∧
    r.lookup "terminationReason" = none ∧
    r.lookup "termination_reason" = none ∧
    r.lookup "lastObservation" = none ∧
    r.lookup "last_observation" = none := by
  unfold run_agent at h
  cases hl : (loopRun env graphRecursionLimit (initial_state files)).1 with
  | crashed e => rw [hl] at h; simp at h
  | fuelOut s => rw [hl] at h; simp at h
  | finished result =>
    rw [hl] at h
    injection h with h2
    subst h2
    exact ⟨⟨_, _, _, rfl⟩, rfl, rfl, rfl, rfl, rfl, rfl, rfl⟩

/-- C9 amended witness: instantiated on a concrete benign run. -/
theorem C9_result_record_shape_witness :
    (∃ cd st it, (Json.obj [("claim_decision", Json.obj []),
                            ("status", Json.str "completed"),
                            ("iterations", Json.num "1")]) =
      Json.obj [("claim_decision", cd), ("status", st), ("iterations", it)]) ∧
    ((Json.obj [("claim_decision", Json.obj []),
                ("status", Json.str "completed"),
                ("iterations", Json.num "1")]).lookup "claim_decision").isSome = true ∧
    ((Json.obj [("claim_decision", Json.obj []),
                ("status", Json.str "completed"),
                ("iterations", Json.num "1")]).lookup "status").isSome = true ∧
    ((Json.obj [("claim_decision", Json.obj []),
                ("status", Json.str "completed"),
                ("iterations", Json.num "1")]).lookup "iterations").isSome = true ∧
    (Json.obj [("claim_decision", Json.obj []),
               ("status", Json.str "completed"),
               ("iterations", Json.num "1")]).lookup "terminationReason" = none ∧
    (Json.obj [("claim_decision", Json.obj []),
               ("status", Json.str "completed"),
               ("iterations", Json.num "1")]).lookup "termination_reason" = none ∧
    (Json.obj [("claim_decision", Json.obj []),
               ("status", Json.str "completed"),
               ("iterations", Json.num "1")]).lookup "lastObservation" = none ∧
    (Json.obj [("claim_decision", Json.obj []),
               ("status", Json.str "completed"),
               ("iterations", Json.num "1")]).lookup "last_observation" = none :=
  C9_result_record_shape envJunkOracle ["w9.pdf"] _ rfl

/-- C8 counterexample: a response containing both keywords is decided
`approve`, not `query`. -/
theorem C8_both_keywords_counterexample :
    pyin "approve".data (pylower (pystrip "approve or reject?".data)) = true ∧
    pyin "reject".data (pylower (pystrip "approve or reject?".data)) = true ∧
    (parse_decision "approve or reject?").1 = "approve" :=
  ⟨rfl, rfl, rfl⟩

/-- C8 amended: the decision is always one of approve/reject/query;
it is `query` exactly when neither keyword occurs (case-insensitively)
in the stripped response; `approve` wins whenever its keyword occurs
(even alongside `reject`), and `reject` requires its keyword without
`approve`. -/
theorem C8_decision_tie_break (s : String) :
    ((parse_decision s).1 = "approve" ∨ (parse_decision s).1 = "reject" ∨
      (parse_decision s).1 = "query") ∧
    ((parse_decision s).1 = "query" ↔
      pyin "approve".data (pylower (pystrip s.data)) = false ∧
      pyin "reject".data (pylower (pystrip s.data)) = false) ∧
    (pyin "approve".data (pylower (pystrip s.data)) = true →
      (parse_decision s).1 = "approve") ∧
    (pyin "approve".data (pylower (pystrip s.data)) = false →
      pyin "reject".data (pylower (pystrip s.data)) = true →
      (parse_decision s).1 = "reject") := by
  unfold parse_decision
  by_cases ha : pyin "approve".data (pylower (pystrip s.data)) <;>
    by_cases hr : pyin "reject".data (pylower (pystrip s.data)) <;>
      simp [ha, hr]

/-- C8 witness: a response naming neither keyword is decided `query`. -/
theorem C8_decision_tie_break_witness :
    (parse_decision "we must turn this down").1 = "query" :=
  (C8_decision_tie_break "we must turn this down").2.1.mpr ⟨rfl, rfl⟩

/-- C2 counterexample: with a single unreadable file the batch executor
raises instead of returning a one-element result list. -/
theorem C2_unreadable_aborts_counterexample :
    process_files_batch envPermDenied "u" (Json.arr [Json.str "locked.pdf"])
        none = .error (.osError "Permission denied") ∧
    ∀ rs, process_files_batch envPermDenied "u"
        (Json.arr [Json.str "locked.pdf"]) none ≠ .ok rs :=
  ⟨rfl, fun rs h => Except.noConfusion h⟩

/-- C2 amended: text batches unconditionally, and file batches whenever
every per-item call returns (in particular whenever no file open raises
an uncaught `OSError`), produce one result per item in input order, and
an empty batch produces an empty list. -/
theorem C2_batch_length_and_order :
    (∀ env url (texts : List Json) extra,
      ∃ rs, process_texts_batch env url (Json.arr texts) extra = .ok rs ∧
        rs.length = texts.length ∧
        ∀ i x, texts.get? i = some x →
          ∃ r, rs.get? i = some r ∧ call_api_with_text env url x extra = .ok r) ∧
    (∀ env url (paths : List Json) extra,
      (∀ p ∈ paths, ∃ r, call_api_with_file env url p extra = .ok r) →
      ∃ rs, process_files_batch env url (Json.arr paths) extra = .ok rs ∧
        rs.length = paths.length ∧
        ∀ i x, paths.get? i = some x →
          ∃ r, rs.get? i = some r ∧ call_api_with_file env url x extra = .ok r) ∧
    (∀ env url extra,
      process_files_batch env url (Json.arr []) extra = .ok ([] : List Json) ∧
      process_texts_batch env url (Json.arr []) extra = .ok ([] : List Json)) := by
  refine ⟨?_, ?_, ?_⟩
  · intro env url texts extra
    have h := mapM_ok_of_all_ok (f := fun t => call_api_with_text env url t extra)
      texts (fun t _ => call_api_with_text_total env url t extra)
    obtain ⟨rs, hmap, hlen, hidx⟩ := h
    refine ⟨rs, ?_, hlen, hidx⟩
    unfold process_texts_batch
    simpa [Json.pyIter] using hmap
  · intro env url paths extra hall
    have h := mapM_ok_of_all_ok (f := fun p => call_api_with_file env url p extra)
      paths hall
    obtain ⟨rs, hmap, hlen, hidx⟩ := h
    refine ⟨rs, ?_, hlen, hidx⟩
    unfold process_files_batch
    simpa [Json.pyIter] using hmap
  · intro env url extra
    exact ⟨rfl, rfl⟩

/-- C2 witness: a two-text batch against a benign endpoint. -/
theorem C2_batch_length_and_order_witness :
    ∃ rs, process_texts_batch envJunkOracle "u"
        (Json.arr [Json.str "text a", Json.str "text b"]) none = .ok rs ∧
      rs.length = [Json.str "text a", Json.str "text b"].length ∧
      ∀ i x, [Json.str "text a", Json.str "text b"].get? i = some x →
        ∃ r, rs.get? i = some r ∧
          call_api_with_text envJunkOracle "u" x none = .ok r :=
  C2_batch_length_and_order.1 envJunkOracle "u"
    [Json.str "text a", Json.str "text b"] none

/-- C3 counterexample: with an unreadable first file the batch raises:
the second item is never attempted and no failure marker is returned
for any index. -/
theorem C3_unreadable_aborts_batch_counterexample :
    process_files_batch envPermDenied "u"
        (Json.arr [Json.str "locked.pdf", Json.str "ok.pdf"]) none
      = .error (.osError "Permission denied") ∧
    ∀ rs, process_files_batch envPermDenied "u"
        (Json.arr [Json.str "locked.pdf", Json.str "ok.pdf"]) none ≠ .ok rs :=
  ⟨rfl, fun rs h => Except.noConfusion h⟩

/-- C3 amended: as long as no file open raises an uncaught `OSError`
(missing files, network errors, timeouts, bad statuses and malformed
bodies included), every item is attempted, each index carries its own
call's outcome, and a missing file yields the `File not found` marker
at exactly its index. -/
theorem C3_per_item_failure_markers (env : Env) (url : String)
    (paths : List String) (extra : Option (List (String × String)))
    (hopen : ∀ p ∈ paths, ∀ m, env.openResult p ≠ .otherOSError m) :
    ∃ rs, process_files_batch env url (Json.arr (paths.map Json.str)) extra
        = .ok rs ∧
      rs.length = paths.length ∧
      (∀ i p, paths.get? i = some p →
        ∃ r, rs.get? i = some r ∧
          call_api_with_file env url (Json.str p) extra = .ok r) ∧
      (∀ i p, paths.get? i = some p → env.openResult p = .fileNotFound →
        rs.get? i = some (Json.obj
          [("error", Json.str ("File not found: " ++ p))])) := by
  have hall : ∀ x ∈ paths.map Json.str,
      ∃ r, call_api_with_file env url x extra = .ok r := by
    intro x hx
    obtain ⟨p, hp, rfl⟩ := List.mem_map.mp hx
    exact call_api_with_file_total env url p extra (hopen p hp)
  obtain ⟨rs, hmap, hlen, hidx⟩ :=
    mapM_ok_of_all_ok (f := fun p => call_api_with_file env url p extra)
      (paths.map Json.str) hall
  have hbatch : process_files_batch env url (Json.arr (paths.map Json.str))
      extra = .ok rs := by
    unfold process_files_batch
    simpa [Json.pyIter] using hmap
  have hcorr : ∀ i p, paths.get? i = some p →
      ∃ r, rs.get? i = some r ∧
        call_api_with_file env url (Json.str p) extra = .ok r := by
    intro i p hp
    exact hidx i (Json.str p) (by rw [List.get?_map, hp]; rfl)
  refine ⟨rs, hbatch, by simpa using hlen, hcorr, ?_⟩
  intro i p hp hnf
  obtain ⟨r, hrs, hcall⟩ := hcorr i p hp
  have : call_api_with_file env url (Json.str p) extra =
      .ok (Json.obj [("error", Json.str ("File not found: " ++ p))]) := by
    unfold call_api_with_file
    dsimp only
    rw [hnf]
  rw [this] at hcall
  injection hcall with h2
  rw [hrs, h2]

/-- C3 witness: a missing middle file yields a marker at index 1 only;
indices 0 and 2 carry their calls' true outcomes. -/
theorem C3_per_item_failure_markers_witness :
    ∃ rs, process_files_batch envMissingMiddle "u"
        (Json.arr (["a.pdf", "gone.pdf", "c.pdf"].map Json.str)) none
        = .ok rs ∧
      rs.length = ["a.pdf", "gone.pdf", "c.pdf"].length ∧
      (∀ i p, ["a.pdf", "gone.pdf", "c.pdf"].get? i = some p →
        ∃ r, rs.get? i = some r ∧
          call_api_with_file envMissingMiddle "u" (Json.str p) none = .ok r) ∧
      (∀ i p, ["a.pdf", "gone.pdf", "c.pdf"].get? i = some p →
        envMissingMiddle.openResult p = .fileNotFound →
        rs.get? i = some (Json.obj
          [("error", Json.str ("File not found: " ++ p))])) :=
  C3_per_item_failure_markers envMissingMiddle "u"
    ["a.pdf", "gone.pdf", "c.pdf"] none
    (by intro p hp m; fin_cases hp <;> simp [envMissingMiddle, baseEnv])

/-- C4 counterexample: the response `7` is valid JSON but not the
expected structured shape; `parsed.get` raises `AttributeError`, which
`except json.JSONDecodeError` does not catch, so the think step — and
the whole run — raises instead of fail-softing. -/
theorem C4_nondict_response_raises_counterexample :
    think_parse "7" = .error (.attributeError "get") ∧
    think_node envNonDictOracle (initial_state ["claim.pdf"]) =
      .error (.attributeError "get") ∧
    run_agent envNonDictOracle ["claim.pdf"] =
      .error (.attributeError "get") :=
  ⟨rfl, rfl, rfl⟩

/-- C4 amended: whenever the oracle's answer fails JSON decoding
entirely (`json.loads` raises `JSONDecodeError`), the think step does
not raise: it stores the fail-soft `finish` proposal with empty inputs.
(A response that decodes to a non-dict value raises instead.) -/
theorem C4_decode_failure_fail_soft (env : Env) (s : AgentState)
    (files : Json) (resp : String)
    (hf : first_msg_files s = .ok files)
    (ho : env.oracle files s.current_step s.observation s.iteration = .ok resp)
    (hp : jsonParse (String.mk (extract_content resp)) = none) :
    think_node env s = .ok
      { s with thought := Json.str "Failed to parse response, finishing.",
               action := Json.str "finish",
               action_input := Json.obj [] } := by
  unfold think_node
  rw [hf]
  show (Except.ok files >>= _) = _
  rw [bindOkRed]
  rw [ho]
  show (Except.ok resp >>= _) = _
  rw [bindOkRed]
  unfold think_parse
  rw [hp]
  rfl

/-- C4 witness: a free-text answer triggers the fail-soft path. -/
theorem C4_decode_failure_fail_soft_witness :
    think_node envJunkOracle (initial_state ["w4.pdf"]) = .ok
      { initial_state ["w4.pdf"] with
        thought := Json.str "Failed to parse response, finishing.",
        action := Json.str "finish",
        action_input := Json.obj [] } :=
  C4_decode_failure_fail_soft envJunkOracle (initial_state ["w4.pdf"])
    (Json.arr [Json.str "w4.pdf"]) "no json here" rfl rfl rfl

/-- C7 counterexample: an exception raised inside the decide stage
handler is not converted into an observation — it propagates out of
`act_node` and crashes the whole run. -/
theorem C7_handler_exception_crashes_run_counterexample :
    run_agent envDecideCrash ["claim.pdf"] =
      .error (.externalError "APIConnectionError" "Connection error.") :=
  rfl

/-- C7 amended: the HTTP batch layer does catch its own failures —
text calls always return, and file calls return whenever the file open
does not raise an uncaught `OSError` — but there is no `try`/`except`
at the dispatch/observe boundary: an exception raised by a stage
handler (here, the decide stage's model call) propagates out of
`act_node` unchanged. -/
theorem C7_no_dispatch_boundary_catch :
    (∀ env url t extra, ∃ j, call_api_with_text env url t extra = .ok j) ∧
    (∀ env url p extra, (∀ m, env.openResult p ≠ .otherOSError m) →
      ∃ j, call_api_with_file env url (Json.str p) extra = .ok j) ∧
    (∀ (env : Env) (s : AgentState) (kvs : List (String × Json)) (e : PyErr),
      s.action = Json.str "decide" → s.action_input = Json.obj kvs →
      (Json.objLookup kvs "files").isSome = true →
      env.decideLLM (Json.objGet kvs "claim_json" (Json.obj [])) = .error e →
      act_node env s = .error e) := by
  refine ⟨call_api_with_text_total, call_api_with_file_total, ?_⟩
  intro env s kvs e ha hi hfk hllm
  unfold act_node
  rw [ha, hi]
  rw [show pyMem "files" (Json.obj kvs) =
      .ok ((Json.objLookup kvs "files").isSome) from rfl, hfk, bindOkRed]
  rw [show default_files s true = pure s.action_input from rfl, hi, bindPureRed]
  rw [execute_action_decide_err hllm]
  rfl

/-- C7 witness: the amended boundary statement at concrete inputs. -/
theorem C7_no_dispatch_boundary_catch_witness :
    (∃ j, call_api_with_text envJunkOracle "u" (Json.str "w7") none = .ok j) ∧
    act_node envDecideCrash
      { initial_state ["w7.pdf"] with
        action := Json.str "decide",
        action_input := Json.obj [("files", Json.arr [])] } =
      .error (.externalError "APIConnectionError" "Connection error.") :=
  ⟨C7_no_dispatch_boundary_catch.1 envJunkOracle "u" (Json.str "w7") none,
   C7_no_dispatch_boundary_catch.2.2 envDecideCrash _
     [("files", Json.arr [])] _ rfl rfl rfl rfl⟩

/-- Dispatching an unregistered action name over mapping inputs yields
the `Unknown action` observation and leaves the state untouched. -/
theorem execute_action_unknown {env : Env} {s : AgentState} {a : String}
    {kvs : List (String × Json)}
    (h1 : a ≠ "ingest") (h2 : a ≠ "preprocess") (h3 : a ≠ "extract")
    (h4 : a ≠ "analyze") (h5 : a ≠ "decide") (h6 : a ≠ "output")
    (h7 : a ≠ "finish") :
    execute_action env (Json.str a) (Json.obj kvs) s =
      .ok ("Unknown action: " ++ a, s) := by
  unfold execute_action
  rw [show Json.pyGet (Json.obj kvs) "files" (Json.arr []) =
      .ok (Json.objGet kvs "files" (Json.arr [])) from rfl, bindOkRed]
  simp only [eqStr_lit, beq_eq_false_iff_ne.mpr h1, beq_eq_false_iff_ne.mpr h2,
    beq_eq_false_iff_ne.mpr h3, beq_eq_false_iff_ne.mpr h4,
    beq_eq_false_iff_ne.mpr h5, beq_eq_false_iff_ne.mpr h6,
    beq_eq_false_iff_ne.mpr h7, Bool.false_eq_true, if_false]
  rfl

/-- The unknown-action observation can never read `COMPLETE`. -/
theorem unknown_obs_ne_complete (a : String) :
    ("Unknown action: " ++ a) ≠ "COMPLETE" := by
  intro h
  have h2 : ("Unknown action: " : String).length + a.length =
      ("COMPLETE" : String).length := by
    rw [← String.length_append, h]
  have e1 : ("Unknown action: " : String).length = 16 := rfl
  have e2 : ("COMPLETE" : String).length = 8 := rfl
  omega

/-- An observed state that is not `COMPLETE`, not `finish`, not already
complete and under the cap routes back to `think`. -/
theorem observe_node_continue {s' : AgentState}
    (hobs : s'.observation ≠ "COMPLETE")
    (hact : s'.action.eqStr "finish" = false)
    (hc : s'.is_complete = false) (hi : s'.iteration ≤ 9) :
    (observe_node s').is_complete = false ∧
    should_continue (observe_node s') = "think" := by
  have hio : (s'.observation == "COMPLETE") = false := beq_eq_false_iff_ne.mpr hobs
  unfold observe_node
  dsimp only
  rw [hio, hact]
  simp only [Bool.or_self, Bool.false_eq_true, if_false]
  rw [if_neg (by omega)]
  refine ⟨hc, ?_⟩
  unfold should_continue
  simp [hc]

/-- Observation outcome after an unknown action: the loop continues. -/
theorem observe_after_unknown (s : AgentState) (a : String) (inp : Json)
    (ha : s.action = Json.str a) (h7 : a ≠ "finish")
    (hic : s.is_complete = false) (hiter : s.iteration ≤ 9) :
    (observe_node { s with observation := ("Unknown action: " ++ a),
                           current_step := Json.str a,
                           action_input := inp }).is_complete = false ∧
    should_continue (observe_node
      { s with observation := ("Unknown action: " ++ a),
               current_step := Json.str a,
               action_input := inp }) = "think" := by
  apply observe_node_continue
  · exact unknown_obs_ne_complete a
  · show s.action.eqStr "finish" = false
    rw [ha, eqStr_lit]
    exact beq_eq_false_iff_ne.mpr h7
  · exact hic
  · exact hiter

/-- C6: a proposal naming a stage outside the seven registered ones
(with mapping inputs, as the proposal contract requires) produces an
`Unknown action` observation, does not raise, does not set
`is_complete`, and routes the loop back to `think` — provided the
first message (when present) is a mapping and the iteration cap is not
about to fire. -/
theorem C6_unknown_action_continues (env : Env) (s : AgentState)
    (a : String) (kvs : List (String × Json))
    (ha : s.action = Json.str a)
    (hreg : a ∉ ["ingest", "preprocess", "extract", "analyze", "decide",
                 "output", "finish"])
    (hin : s.action_input = Json.obj kvs)
    (hmsg : s.messages = [] ∨ ∃ m rest, s.messages = Json.obj m :: rest)
    (hic : s.is_complete = false) (hiter : s.iteration ≤ 9) :
    ∃ s', act_node env s = .ok s' ∧
      s'.observation = "Unknown action: " ++ a ∧
      s'.is_complete = false ∧
      (observe_node s').is_complete = false ∧
      should_continue (observe_node s') = "think" := by
  simp only [List.mem_cons, List.mem_singleton, not_or] at hreg
  obtain ⟨h1, h2, h3, h4, h5, h6, h7⟩ := hreg
  have h7' : a ≠ "finish" := by simpa using h7
  unfold act_node
  rw [ha, hin]
  rw [show pyMem "files" (Json.obj kvs) =
      .ok ((Json.objLookup kvs "files").isSome) from rfl, bindOkRed]
  cases hfk : (Json.objLookup kvs "files").isSome with
  | true =>
    rw [show default_files s true = pure s.action_input from rfl, hin,
        bindPureRed,
        execute_action_unknown h1 h2 h3 h4 h5 h6 h7', bindOkRed]
    exact ⟨_, rfl, rfl, hic, observe_after_unknown s a _ ha h7' hic hiter⟩
  | false =>
    rw [show default_files s false = (match s.messages with
        | [] => pure s.action_input
        | m :: _ => do
            let fv ← Json.pyGet m "files" (Json.arr [])
            Json.pySetItem s.action_input "files" fv) from rfl]
    rcases hmsg with hm | ⟨m, rest, hm⟩ <;> rw [hm]
    · dsimp only
      rw [hin, bindPureRed,
          execute_action_unknown h1 h2 h3 h4 h5 h6 h7', bindOkRed]
      exact ⟨_, rfl, rfl, hic, observe_after_unknown s a _ ha h7' hic hiter⟩
    · dsimp only
      rw [show Json.pyGet (Json.obj m) "files" (Json.arr []) =
          .ok (Json.objGet m "files" (Json.arr [])) from rfl, bindOkRed, hin]
      rw [show Json.pySetItem (Json.obj kvs) "files"
            (Json.objGet m "files" (Json.arr [])) =
          .ok (Json.obj (Json.objInsert kvs "files"
            (Json.objGet m "files" (Json.arr [])))) from rfl, bindOkRed]
      rw [execute_action_unknown h1 h2 h3 h4 h5 h6 h7', bindOkRed]
      exact ⟨_, rfl, rfl, hic, observe_after_unknown s a _ ha h7' hic hiter⟩

/-- C6 witness: the unregistered action `fly` at iteration 0. -/
theorem C6_unknown_action_continues_witness :
    ∃ s', act_node envJunkOracle
        { initial_state ["w6.pdf"] with action := Json.str "fly" } = .ok s' ∧
      s'.observation = "Unknown action: " ++ "fly" ∧
      s'.is_complete = false ∧
      (observe_node s').is_complete = false ∧
      should_continue (observe_node s') = "think" :=
  C6_unknown_action_continues envJunkOracle
    { initial_state ["w6.pdf"] with action := Json.str "fly" } "fly" []
    rfl (by decide) rfl
    (Or.inr ⟨[("files", Json.arr [Json.str "w6.pdf"])], [], rfl⟩)
    rfl (by decide)

/-- C5 amended: for every payload with no surrounding whitespace and no
` ``` ` fence marker inside it, wrapping in either decorative fence
parses to exactly the same think-step result as the unwrapped payload
(whether that parse succeeds, fail-softs or raises). -/
theorem C5_fencing_preserves_parse (P : String)
    (hstrip : pystrip P.data = P.data)
    (hnf : pyin "```".data P.data = false) :
    think_parse ("```json\n" ++ P ++ "\n```") = think_parse P ∧
    think_parse ("```\n" ++ P ++ "\n```") = think_parse P := by
  have hnf2 : fsplit fenceM P.data = none := by
    unfold pyin at hnf
    rw [show ("```" : String).data = fenceM from rfl] at hnf
    cases h : fsplit fenceM P.data with
    | none => rfl
    | some pr => rw [h] at hnf; simp at hnf
  have heq : ∀ w : String, extract_content w = '\n' :: (P.data ++ ['\n']) →
      think_parse w = think_parse P := by
    intro w hw
    unfold think_parse
    rw [hw, extract_content_unwrapped P hstrip hnf2, jsonParse_pad,
        show String.mk P.data = P from rfl]
  exact ⟨heq _ (extract_content_wrapJson P hnf2),
         heq _ (extract_content_wrapPlain P hnf2)⟩

/-- C5 witness: a concrete fence-free payload parses identically
wrapped and unwrapped. -/
theorem C5_fencing_preserves_parse_witness :
    think_parse ("```json\n" ++ "\x7b\"action\": \"decide\"\x7d" ++ "\n```") =
      think_parse "\x7b\"action\": \"decide\"\x7d" ∧
    think_parse ("```\n" ++ "\x7b\"action\": \"decide\"\x7d" ++ "\n```") =
      think_parse "\x7b\"action\": \"decide\"\x7d" :=
  C5_fencing_preserves_parse "\x7b\"action\": \"decide\"\x7d" rfl rfl

/-- C5 counterexample: `backtickPayload` is a valid structured payload,
yet parsing it unwrapped raises `AttributeError` (the fence heuristic
extracts the `7` between its inner backticks) while parsing it wrapped
in either fence fail-softs to the `finish` proposal — the wrapped and
unwrapped results differ. -/
theorem C5_backtick_payload_counterexample :
    jsonParse backtickPayload = some (Json.obj
      [("thought", Json.str "```7```"), ("action", Json.str "ingest"),
       ("action_input", Json.obj [])]) ∧
    think_parse backtickPayload = .error (.attributeError "get") ∧
    think_parse ("```json\n" ++ backtickPayload ++ "\n```") =
      .ok (Json.str "Failed to parse response, finishing.",
           Json.str "finish", Json.obj []) ∧
    think_parse ("```\n" ++ backtickPayload ++ "\n```") =
      .ok (Json.str "Failed to parse response, finishing.",
           Json.str "finish", Json.obj []) :=
  ⟨rfl, rfl, rfl, rfl⟩

end HIA
